import Mathlib

/-!
Verification development for the turn-based battle simulation in `src/main.py`.

The Python classes are shallowly embedded as Lean structures and pure
functions.  Python integers are modelled as `Int` (the turn counter, which
only counts up from 0, as `Nat`), Python lists as `List`, optional values as
`Option`.  The mutable object graph of the Python program is made explicit:
the two teams own their characters, and a character occurring in an
intermediate list (the fighter order, an event's target) is represented by a
reference `CharRef = (side, index into that team's character list)`, exactly
mirroring how the Python engine mutates characters in place through shared
references.

Randomness: the engine draws from Python's global `random` generator, which
`GameEngine.__init__` seeds via `random.seed(random_seed)`.  Given the seed,
the sequence of values produced by the generator is a fixed deterministic
stream; we model that stream directly as a function `rng : Nat -> RandDraw`
indexed by the number of draws made so far (one entry per `random.random()` /
`random.choice` call, in call order).  `random.random() < p` comparisons are
exact on rationals.  `random.choice(seq)` is modelled as picking index
`(draw.ix) % seq.length`; every index is realisable, and a concrete stream
pins the choice, which is all the theorems below need.

`uuid.uuid4()` (called by `Event.__init__` for `event_id`) does NOT read the
seeded `random` generator: it draws fresh OS entropy on every call, so its
values are not a function of the seed.  We model the sequence of uuid hex
strings a run happens to draw as a separate stream `uuids : Nat -> String`;
two runs with the same seed share `rng` but in general have different
`uuids` streams.
-/

namespace Battle

/-- `random.random()` / `random.choice` outcomes for one draw of the seeded
generator: `fl` is the float (modelled exactly as a rational in `[0,1)`)
returned if this draw is a `random.random()` call, `ix` the raw index used
if this draw is a `random.choice` call. -/
structure RandDraw where
  fl : ℚ
  ix : Nat
deriving Repr, DecidableEq, Inhabited

/-- `class StatusEffect` (src/main.py lines 25-49). -/
structure StatusEffect where
  name : String
  duration : Int
  effect_value : Int
  effect_type : String
deriving Repr, DecidableEq, Inhabited

/-- `class Ability` (src/main.py lines 55-74): `__init__` sets
`current_cooldown = 0`, so a freshly constructed ability has the
`current_cooldown` field 0; `Ability.make` mirrors the constructor. -/
structure Ability where
  name : String
  power : Int
  cooldown : Int
  current_cooldown : Int
  effect : Option StatusEffect
deriving Repr, DecidableEq, Inhabited

/-- `Ability.__init__`. -/
def Ability.make (name : String) (power cooldown : Int) (effect : Option StatusEffect) :
    Ability :=
  { name := name, power := power, cooldown := cooldown, current_cooldown := 0,
    effect := effect }

/-- `Ability.is_available`. -/
def Ability.is_available (a : Ability) : Bool :=
  a.current_cooldown == 0

/-- `Ability.use`. -/
def Ability.use (a : Ability) : Ability :=
  { a with current_cooldown := a.cooldown }

/-- `Ability.tick_cooldown`. -/
def Ability.tick_cooldown (a : Ability) : Ability :=
  if a.current_cooldown > 0 then { a with current_cooldown := a.current_cooldown - 1 } else a

/-- `class Item` (src/main.py lines 80-97); carried by characters but never
touched by the engine's battle loop. -/
structure Item where
  name : String
  effect : String
  effect_value : Int
  quantity : Int
deriving Repr, DecidableEq, Inhabited

/-- `class Character` (src/main.py lines 103-151). -/
structure Character where
  name : String
  max_hp : Int
  current_hp : Int
  attack : Int
  defense : Int
  speed : Int
  team_id : String
  position : Int
  alive : Bool
  abilities : List Ability
  inventory : List Item
  status_effects : List StatusEffect
deriving Repr, DecidableEq, Inhabited

/-- `Character.__init__`: `max_hp = current_hp = hp`, `alive = True`,
`status_effects = []`. -/
def Character.make (name : String) (hp attack defense speed : Int) (team_id : String)
    (position : Int) (abilities : List Ability) (inventory : List Item) : Character :=
  { name := name, max_hp := hp, current_hp := hp, attack := attack, defense := defense,
    speed := speed, team_id := team_id, position := position, alive := true,
    abilities := abilities, inventory := inventory, status_effects := [] }

/-- `Character.is_alive`: returns the stored flag. -/
def Character.is_alive (c : Character) : Bool :=
  c.alive

/-- `Character.take_damage`: subtract, clamp at 0, and mark dead when the
result would be `<= 0`. -/
def Character.take_damage (c : Character) (amount : Int) : Character :=
  let hp := c.current_hp - amount
  if hp ≤ 0 then { c with current_hp := 0, alive := false }
  else { c with current_hp := hp }

/-- `Character.heal`: add, clamp at `max_hp`, and set `alive` whenever the
resulting hp is positive. -/
def Character.heal (c : Character) (amount : Int) : Character :=
  let hp := min (c.current_hp + amount) c.max_hp
  if hp > 0 then { c with current_hp := hp, alive := true }
  else { c with current_hp := hp }

/-- `Character.add_status_effect`. -/
def Character.add_status_effect (c : Character) (e : StatusEffect) : Character :=
  { c with status_effects := c.status_effects ++ [e] }

/-- `StatusEffect.apply_effect` (dispatch on `effect_type`); defined here
because it mutates the character. -/
def StatusEffect.apply_effect (e : StatusEffect) (c : Character) : Character :=
  if e.effect_type == "poison" then c.take_damage e.effect_value
  else if e.effect_type == "heal" then c.heal e.effect_value
  else if e.effect_type == "buff" then { c with attack := c.attack + e.effect_value }
  else if e.effect_type == "debuff" then
    { c with defense := max 0 (c.defense - e.effect_value) }
  else c

/-- `StatusEffect.tick`. -/
def StatusEffect.tick (e : StatusEffect) : StatusEffect :=
  { e with duration := e.duration - 1 }

/-- `StatusEffect.is_expired`. -/
def StatusEffect.is_expired (e : StatusEffect) : Bool :=
  e.duration ≤ 0

/-- The loop body of `Character.process_status_effects`: walk the held
effects in order; apply each one to the character, record the log line, and
tick it.  Returns the updated character, the ticked effects (in order), and
the log lines (in order).  `apply_effect` never reads or writes the
`status_effects` list, so iterating over the snapshot is exactly the Python
in-place loop. -/
def processEffectsAux (c : Character) :
    List StatusEffect → Character × List StatusEffect × List String
  | [] => (c, [], [])
  | e :: rest =>
    let c1 := e.apply_effect c
    let en := e.name
    let ev := toString e.effect_value
    let cn := c.name
    let line := s!"{cn} is affected by {en} ({ev})"
    let r := processEffectsAux c1 rest
    (r.1, e.tick :: r.2.1, line :: r.2.2)

/-- `Character.process_status_effects`: apply + log + tick every held effect,
then drop the now-expired ones. -/
def Character.process_status_effects (c : Character) : Character × List String :=
  let r := processEffectsAux c c.status_effects
  ({ r.1 with status_effects := r.2.1.filter (fun e => ¬ e.is_expired) }, r.2.2)

/-- `Character.tick_abilities`. -/
def Character.tick_abilities (c : Character) : Character :=
  { c with abilities := c.abilities.map Ability.tick_cooldown }

/-- `class Team` (src/main.py lines 157-181). -/
structure Team where
  team_id : String
  characters : List Character
  formation : List Int
deriving Repr, DecidableEq, Inhabited

/-- `Team.__init__`. -/
def Team.make (team_id : String) : Team :=
  { team_id := team_id, characters := [], formation := [] }

/-- `Team.add_character`. -/
def Team.add_character (t : Team) (c : Character) : Team :=
  { t with characters := t.characters ++ [c], formation := t.formation ++ [c.position] }

/-- `Team.get_alive_characters`. -/
def Team.get_alive_characters (t : Team) : List Character :=
  t.characters.filter Character.is_alive

/-- `Team.is_defeated`: `all(not c.is_alive() ...)`. -/
def Team.is_defeated (t : Team) : Bool :=
  t.characters.all (fun c => ¬ c.is_alive)

/-- `Team.rearrange_formation`: a silent no-op when the new order's length
differs from the roster size; otherwise reassigns each member's position
pairwise and replaces the formation list. -/
def Team.rearrange_formation (t : Team) (new_order : List Int) : Team :=
  if new_order.length ≠ t.characters.length then t
  else
    { t with
      characters := (t.characters.zip new_order).map (fun p => { p.1 with position := p.2 }),
      formation := new_order }

/-- Which of the two teams a character reference points into. -/
inductive Side
  | a
  | b
deriving Repr, DecidableEq, Inhabited

/-- A reference to one character slot: the Python engine passes `Character`
objects around by reference; we name them by team side and index into that
team's `characters` list. -/
structure CharRef where
  side : Side
  idx : Nat
deriving Repr, DecidableEq, Inhabited

/-- The `Event` class hierarchy (src/main.py lines 187-226) as a closed
variant.  Every event stores the `event_id` (a `uuid.uuid4().hex` drawn at
construction) and the textual `description` built by `__init__` from the
participants' (immutable) names, plus the data its `process` method reads:
the critical hit's target reference and extra damage, and the ability
event's attached status effect and target. -/
inductive Event
  | criticalHit (event_id : String) (description : String) (target : CharRef)
      (extra_damage : Int)
  | miss (event_id : String) (description : String)
  | abilityUsed (event_id : String) (description : String) (effect : Option StatusEffect)
      (target : Option CharRef)
deriving Repr, DecidableEq, Inhabited

/-- `str(event)`, i.e. `Event.__repr__`: `<Event {event_id}: {description}>`. -/
def Event.str : Event → String
  | .criticalHit event_id description _ _ => "<Event " ++ event_id ++ ": " ++ description ++ ">"
  | .miss event_id description => "<Event " ++ event_id ++ ": " ++ description ++ ">"
  | .abilityUsed event_id description _ _ =>
    "<Event " ++ event_id ++ ": " ++ description ++ ">"

/-- One entry of a turn record's `actions` list
(`{"actor": ..., "action": None, "target": None, "damage": 0, "extra": []}`,
src/main.py line 279). -/
structure ActionRecord where
  actor : String
  action : Option String
  target : Option String
  damage : Int
  extra : List String
deriving Repr, DecidableEq, Inhabited

/-- One entry of the confrontation log `GameEngine.turn_log`: either a turn
record (`status_effects` and `events` keys present only when set) or the
terminal result record. -/
inductive LogEntry
  | turn (turn_number : Nat) (actions : List ActionRecord)
      (status_effects : Option (List String)) (events : Option (List String))
  | result (battle_result : String) (final_turn : Nat)
deriving Repr, DecidableEq, Inhabited

/-- `class GameEngine` state (src/main.py lines 232-241) plus the positions
reached in the two external streams: `rng_idx` counts the draws made from
the seeded `random` generator, `uuid_idx` the `uuid.uuid4()` calls made. -/
structure GameEngine where
  team_a : Team
  team_b : Team
  turn_log : List LogEntry
  event_log : List Event
  battle_over : Bool
  turn_count : Nat
  rng_idx : Nat
  uuid_idx : Nat
deriving Repr, DecidableEq, Inhabited

/-- `GameEngine.__init__`: note it also calls `random.seed(random_seed)`,
which is what makes `rng` below the stream determined by the seed. -/
def GameEngine.init (a b : Team) : GameEngine :=
  { team_a := a, team_b := b, turn_log := [], event_log := [], battle_over := false,
    turn_count := 0, rng_idx := 0, uuid_idx := 0 }

/-- The team a side refers to. -/
def GameEngine.getTeam (st : GameEngine) : Side → Team
  | .a => st.team_a
  | .b => st.team_b

/-- Dereference a character reference (out-of-range indices, which no run
produces, fall back to `default`). -/
def GameEngine.getChar (st : GameEngine) (r : CharRef) : Character :=
  ((st.getTeam r.side).characters).getD r.idx default

/-- Write back through a character reference (Python mutates the shared
object in place). -/
def GameEngine.setChar (st : GameEngine) (r : CharRef) (c : Character) : GameEngine :=
  match r.side with
  | .a => { st with team_a := { st.team_a with characters := st.team_a.characters.set r.idx c } }
  | .b => { st with team_b := { st.team_b with characters := st.team_b.characters.set r.idx c } }

/-- In-place mutation of the referenced character. -/
def GameEngine.modifyChar (st : GameEngine) (r : CharRef) (f : Character → Character) :
    GameEngine :=
  st.setChar r (f (st.getChar r))

/-- References to a team's currently alive characters, in roster order
(`Team.get_alive_characters` as references). -/
def Team.alive_refs (t : Team) (s : Side) : List CharRef :=
  ((List.range t.characters.length).filter
    (fun i => (t.characters.getD i default).is_alive)).map (fun i => ⟨s, i⟩)

/-- `GameEngine._get_all_alive_characters`: team A's alive members then team
B's. -/
def GameEngine.all_alive_refs (st : GameEngine) : List CharRef :=
  st.team_a.alive_refs .a ++ st.team_b.alive_refs .b

/-- One `random.random()` call. -/
def drawFloat (rng : Nat → RandDraw) (st : GameEngine) : ℚ × GameEngine :=
  ((rng st.rng_idx).fl, { st with rng_idx := st.rng_idx + 1 })

/-- One `random.choice` call over a sequence of length `n` (only ever made
with `n > 0`). -/
def drawChoice (rng : Nat → RandDraw) (st : GameEngine) (n : Nat) : Nat × GameEngine :=
  ((rng st.rng_idx).ix % n, { st with rng_idx := st.rng_idx + 1 })

/-- One `uuid.uuid4().hex` call. -/
def drawUuid (uuids : Nat → String) (st : GameEngine) : String × GameEngine :=
  (uuids st.uuid_idx, { st with uuid_idx := st.uuid_idx + 1 })

/-- `GameEngine._process_status_effects`: iterate over the snapshot of
currently alive characters (A then B) and run each one's
`process_status_effects`, concatenating the log lines. -/
def statusStep (acc : GameEngine × List String) (r : CharRef) : GameEngine × List String :=
  let res := (acc.1.getChar r).process_status_effects
  (acc.1.setChar r res.1, acc.2 ++ res.2)

def GameEngine.process_status_phase (st : GameEngine) : GameEngine × List String :=
  st.all_alive_refs.foldl statusStep (st, [])

/-- `GameEngine._choose_target`: pick a uniformly random living member of
the opposing team (a `random.choice` draw is made only when the list is
non-empty, matching the short-circuit
`random.choice(living_enemies) if living_enemies else None`). -/
def GameEngine.enemy_side (st : GameEngine) (fighter : Character) : Side :=
  if fighter.team_id == st.team_a.team_id then .b else .a

/-- `target_team.get_alive_characters()` as references. -/
def GameEngine.living_enemies (st : GameEngine) (fighter : Character) : List CharRef :=
  (st.getTeam (st.enemy_side fighter)).alive_refs (st.enemy_side fighter)

def GameEngine.choose_target (st : GameEngine) (rng : Nat → RandDraw) (fighter : Character) :
    Option CharRef × GameEngine :=
  let living := st.living_enemies fighter
  if living.isEmpty then (none, st)
  else
    let d := drawChoice rng st living.length
    (some (living.getD d.1 default), d.2)

/-- The basic-attack half of `GameEngine._perform_action` (the `else` branch
at src/main.py line 295): choose a target; with probability 0.1 miss (queue a
`MissEvent`, damage 0, no mutation); otherwise roll the 0.2 critical chance
(queue a `CriticalHitEvent` carrying `int(attack * 0.5)`, Lean:
`Int.div attack 2`, exact for the attack magnitudes a run can hold), then
apply `base + extra` damage immediately and record it. -/
def GameEngine.basic_attack (st : GameEngine) (rng : Nat → RandDraw) (uuids : Nat → String)
    (fref : CharRef) (record : ActionRecord) : GameEngine × ActionRecord :=
  let fighter := st.getChar fref
  let tr := st.choose_target rng fighter
  match tr.1 with
  | none => (tr.2, { record with action := some "idle" })
  | some tref =>
    let st1 := tr.2
    let target := st1.getChar tref
    let d2 := drawFloat rng st1
    if d2.1 < mkRat 1 10 then
      let du := drawUuid uuids d2.2
      let fn := fighter.name
      let tn := target.name
      let desc := s!"{fn}'s attack missed {tn}"
      let st3 := { du.2 with event_log := du.2.event_log ++ [Event.miss du.1 desc] }
      (st3, { record with action := some "attack (missed)",
                          target := some target.name, damage := 0 })
    else
      let d3 := drawFloat rng d2.2
      if d3.1 < mkRat 1 5 then
        let extra := fighter.attack.tdiv 2
        let du := drawUuid uuids d3.2
        let fn := fighter.name
        let tn := target.name
        let ex := toString extra
        let desc := s!"Critical hit by {fn} on {tn} for extra {ex}"
        let st4 := { du.2 with
          event_log := du.2.event_log ++ [Event.criticalHit du.1 desc tref extra] }
        let base := max 1 (fighter.attack - target.defense)
        let total := base + extra
        let st5 := st4.modifyChar tref (fun t => t.take_damage total)
        (st5, { record with action := some "attack",
                            target := some target.name, damage := total })
      else
        let base := max 1 (fighter.attack - target.defense)
        let st4 := d3.2.modifyChar tref (fun t => t.take_damage base)
        (st4, { record with action := some "attack",
                            target := some target.name, damage := base })

/-- The ability half of `GameEngine._perform_action` (taken when at least
one ability is off cooldown and the 0.3 roll succeeds): choose an available
ability uniformly, choose a target; if one exists, start the cooldown, queue
an `AbilityUsedEvent` (its status-effect grant is deferred to the flush),
and apply `max(1, attack + power - defense)` damage immediately. -/
def GameEngine.ability_action (st : GameEngine) (rng : Nat → RandDraw) (uuids : Nat → String)
    (fref : CharRef) (record : ActionRecord) (availIdx : List Nat) :
    GameEngine × ActionRecord :=
  let fighter := st.getChar fref
  let dc := drawChoice rng st availIdx.length
  let aIdx := availIdx.getD dc.1 0
  let ability := fighter.abilities.getD aIdx default
  let tr := dc.2.choose_target rng fighter
  match tr.1 with
  | none => (tr.2, { record with action := some "idle" })
  | some tref =>
    let st2 := tr.2
    let target := st2.getChar tref
    let st3 := st2.modifyChar fref
      (fun f => { f with abilities := f.abilities.set aIdx ability.use })
    let du := drawUuid uuids st3
    let fn := fighter.name
    let an := ability.name
    let tn := target.name
    let desc := s!"{fn} used ability {an} on {tn}"
    let st5 := { du.2 with
      event_log := du.2.event_log ++ [Event.abilityUsed du.1 desc ability.effect (some tref)] }
    let damage := max 1 (fighter.attack + ability.power - target.defense)
    let st6 := st5.modifyChar tref (fun t => t.take_damage damage)
    (st6, { record with action := some ("use ability " ++ ability.name),
                        target := some target.name, damage := damage,
                        extra := ["ability event logged"] })

/-- The indices (into the fighter's ability list) of its currently available
abilities — `[ab for ab in fighter.abilities if ab.is_available()]` as
indices. -/
def GameEngine.avail_indices (st : GameEngine) (fref : CharRef) : List Nat :=
  (List.range (st.getChar fref).abilities.length).filter
    (fun i => ((st.getChar fref).abilities.getD i default).is_available)

/-- `GameEngine._perform_action`: mirror of
`if available_abilities and random.random() < 0.3:` — the 0.3 roll is drawn
only when some ability is available (Python's `and` short-circuits). -/
def GameEngine.perform_action (st : GameEngine) (rng : Nat → RandDraw) (uuids : Nat → String)
    (fref : CharRef) : GameEngine × ActionRecord :=
  let fighter := st.getChar fref
  let record : ActionRecord :=
    { actor := fighter.name, action := none, target := none, damage := 0, extra := [] }
  let availIdx := st.avail_indices fref
  if availIdx.isEmpty then st.basic_attack rng uuids fref record
  else
    let d1 := drawFloat rng st
    if d1.1 < mkRat 3 10 then d1.2.ability_action rng uuids fref record availIdx
    else d1.2.basic_attack rng uuids fref record

/-- The data `(name, speed, position)` of a character: the engine never
mutates any of these three fields during a run, and they determine the
turn-order sort key. -/
def Character.sortData (c : Character) : String × Int × Int :=
  (c.name, c.speed, c.position)

/-- Sort key comparison for `all_fighters.sort(key=lambda c: (-c.speed,
c.position))`: ascending lexicographic order on `(-speed, position)`, i.e.
speed descending then position ascending. -/
def fighterLe (x y : Character) : Bool :=
  (y.speed < x.speed) || (x.speed == y.speed && x.position ≤ y.position)

/-- Stable insertion of `x` after every element `y` with `le y x`. -/
def insertSorted (le : α → α → Bool) (x : α) : List α → List α
  | [] => [x]
  | y :: ys => if le y x then y :: insertSorted le x ys else x :: y :: ys

/-- Stable sort (insertion sort, inserting left to right).  Python's
`list.sort` is also a stable sort; for a total preorder the stable ascending
reordering of a list is unique, so the two agree element for element. -/
def stableSort (le : α → α → Bool) (l : List α) : List α :=
  l.foldl (fun acc x => insertSorted le x acc) []

/-- The fighter ordering of src/main.py line 255, on references, with the
keys read at sort time. -/
def GameEngine.sorted_fighters (st : GameEngine) (refs : List CharRef) : List CharRef :=
  stableSort (fun r1 r2 => fighterLe (st.getChar r1) (st.getChar r2)) refs

/-- `Event.process(self, game_engine)` for each variant: the critical hit
applies its extra damage now; the miss does nothing; the ability event
attaches its status effect to its target (Python appends the effect object;
with value semantics the target receives a copy). -/
def Event.process : Event → GameEngine → GameEngine
  | .criticalHit _ _ tref extra, st => st.modifyChar tref (fun t => t.take_damage extra)
  | .miss _ _, st => st
  | .abilityUsed _ _ eff tgt, st =>
    match eff, tgt with
    | some e, some tref => st.modifyChar tref (fun t => t.add_status_effect e)
    | _, _ => st

/-- `setdefault("events", []).append(str(event))` on a log entry.  (On a
result record the Python dict would gain an `events` key; that path is
unreachable — events are flushed before the result record exists — and is
modelled as a no-op.) -/
def LogEntry.push_event (entry : LogEntry) (s : String) : LogEntry :=
  match entry with
  | .turn n acts se evs => .turn n acts se (some ((evs.getD []) ++ [s]))
  | .result r f => .result r f

/-- Append an event's string to `turn_log[-1]` (an empty log, on which
Python would raise `IndexError`, is unreachable during a run and modelled as
a no-op). -/
def GameEngine.push_event_string (st : GameEngine) (s : String) : GameEngine :=
  match st.turn_log.getLast? with
  | none => st
  | some e => { st with turn_log := st.turn_log.dropLast ++ [e.push_event s] }

/-- `GameEngine._process_events`: drain the queue FIFO; for each event,
apply its effect and append its string to the current turn record.  The
`process` methods never enqueue new events, so folding over the snapshot is
exactly the Python `while self.event_log:` loop. -/
def eventStep (s : GameEngine) (e : Event) : GameEngine :=
  (e.process s).push_event_string e.str

def GameEngine.process_events (st : GameEngine) : GameEngine :=
  st.event_log.foldl eventStep { st with event_log := [] }

/-- The action loop of `run_battle` (src/main.py lines 256-264): for each
fighter in sorted order, skip it if it has died earlier this turn, otherwise
tick its abilities and resolve one action; after each action, if either team
is now defeated, set `battle_over` and break. -/
def GameEngine.action_loop (rng : Nat → RandDraw) (uuids : Nat → String) :
    GameEngine → List CharRef → GameEngine × List ActionRecord
  | st, [] => (st, [])
  | st, r :: rs =>
    if ¬ (st.getChar r).is_alive then action_loop rng uuids st rs
    else
      let st1 := st.modifyChar r Character.tick_abilities
      let pr := st1.perform_action rng uuids r
      if pr.1.team_a.is_defeated || pr.1.team_b.is_defeated then
        ({ pr.1 with battle_over := true }, [pr.2])
      else
        let rest := action_loop rng uuids pr.1 rs
        (rest.1, pr.2 :: rest.2)

/-- One iteration of the `while` loop in `GameEngine.run_battle`
(src/main.py lines 245-266): increment the turn counter, run the status
phase, recompute the alive fighters (if none remain, set `battle_over` and
break — note the `break` skips the `turn_log.append`), otherwise sort them,
run the action loop, append the turn record and flush the event queue. -/
def GameEngine.one_turn (st : GameEngine) (rng : Nat → RandDraw) (uuids : Nat → String) :
    GameEngine :=
  let stA := { st with turn_count := st.turn_count + 1 }
  let ps := stA.process_status_phase
  let stB := ps.1
  let status_logs := ps.2
  let fighters := stB.all_alive_refs
  if fighters.isEmpty then { stB with battle_over := true }
  else
    let sorted := stB.sorted_fighters fighters
    let al := GameEngine.action_loop rng uuids stB sorted
    let entry := LogEntry.turn stA.turn_count al.2
      (if status_logs.isEmpty then none else some status_logs) none
    let stD := { al.1 with turn_log := al.1.turn_log ++ [entry] }
    stD.process_events

/-- The `while not self.battle_over and self.turn_count < max_turns:` loop,
with fuel.  The counter increases by exactly 1 per iteration, so fuel 100
from a fresh engine always reaches the guard. -/
def GameEngine.run_turns (rng : Nat → RandDraw) (uuids : Nat → String) :
    Nat → GameEngine → GameEngine
  | 0, st => st
  | fuel + 1, st =>
    if st.battle_over || ¬ (st.turn_count < 100) then st
    else run_turns rng uuids fuel (st.one_turn rng uuids)

/-- The `result` string computed by `GameEngine._log_battle_result`
(src/main.py lines 330-337). -/
def GameEngine.battle_result_string (st : GameEngine) : String :=
  if st.team_a.is_defeated && st.team_b.is_defeated then "Draw: Both teams defeated."
  else if st.team_a.is_defeated then "Team " ++ st.team_b.team_id ++ " wins!"
  else if st.team_b.is_defeated then "Team " ++ st.team_a.team_id ++ " wins!"
  else "Turn limit reached. Possibly a draw."

/-- `GameEngine._log_battle_result`: append the terminal record. -/
def GameEngine.log_battle_result (st : GameEngine) : GameEngine :=
  { st with turn_log := st.turn_log ++ [LogEntry.result st.battle_result_string st.turn_count] }

/-- `GameEngine.run_battle` from a fresh engine: `init` (which seeds the
generator, fixing `rng`), the turn loop, then the terminal record. -/
def GameEngine.run_battle (a b : Team) (rng : Nat → RandDraw) (uuids : Nat → String) :
    GameEngine :=
  ((GameEngine.init a b).run_turns rng uuids 100).log_battle_result

/-! ### Concrete scenarios used by counterexamples and witnesses -/

/-- A finite prefix of random draws, padded with a harmless default (a 0.5
float roll and index 0, which triggers none of the probabilistic branches). -/
def rngOf (l : List RandDraw) : Nat → RandDraw :=
  fun k => l.getD k ⟨mkRat 1 2, 0⟩

/-- The `turn_number` key of a log entry (`none` on the result record). -/
def LogEntry.turn_number? : LogEntry → Option Nat
  | .turn n _ _ _ => some n
  | .result _ _ => none

/-- Whether a log entry is a turn record (as opposed to the terminal result
record). -/
def LogEntry.isTurn : LogEntry → Bool
  | .turn _ _ _ _ => true
  | .result _ _ => false

/-- One-member squads for the determinism counterexample: "A" misses (the
run queues a `MissEvent`, whose logged string embeds the uuid), then "B"
one-shots "A". -/
def c1A : Team := (Team.make "TA").add_character (Character.make "A" 10 5 0 2 "TA" 0 [] [])

def c1B : Team := (Team.make "TB").add_character (Character.make "B" 10 100 0 1 "TB" 0 [] [])

def c1rng : Nat → RandDraw :=
  rngOf [⟨mkRat 1 2, 0⟩, ⟨mkRat 1 20, 0⟩, ⟨mkRat 1 2, 0⟩, ⟨mkRat 1 2, 0⟩, ⟨mkRat 1 2, 0⟩]

/-- Squads for the deferred-critical-damage counterexample: "F" (attack 10)
lands a critical basic attack on "T" (defense 2, hp 30). -/
def c2A : Team := (Team.make "TF").add_character (Character.make "F" 30 10 0 1 "TF" 0 [] [])

def c2B : Team := (Team.make "TT").add_character (Character.make "T" 30 1 2 1 "TT" 0 [] [])

def c2st : GameEngine := GameEngine.init c2A c2B

/-- Draws for the C2 scenario: target choice, a 0.5 miss roll (no miss),
a 0.1 crit roll (critical). -/
def c2rng : Nat → RandDraw := rngOf [⟨mkRat 1 2, 0⟩, ⟨mkRat 1 2, 0⟩, ⟨mkRat 1 10, 0⟩]

/-- Squads for the cooldown counterexample: fast "K" vs slow "V"; "V" uses
its ability (cooldown 3) in turn 1, then dies to "K"'s critical in turn 2
before its own slot comes up. -/
def c3A : Team := (Team.make "TA").add_character (Character.make "K" 50 4 0 10 "TA" 0 [] [])

def c3B : Team := (Team.make "TB").add_character
  (Character.make "V" 10 2 0 5 "TB" 0 [Ability.make "Q" 1 3 none] [])

def c3rng : Nat → RandDraw :=
  rngOf [⟨mkRat 1 2, 0⟩, ⟨mkRat 1 2, 0⟩, ⟨mkRat 1 2, 0⟩, ⟨mkRat 1 10, 0⟩,
    ⟨mkRat 1 2, 0⟩, ⟨mkRat 1 2, 0⟩, ⟨mkRat 1 2, 0⟩, ⟨mkRat 1 2, 0⟩, ⟨mkRat 1 10, 0⟩]

/-- Witness state for the amended cooldown claim: "V" is already dead and
holds an ability with 2 turns of cooldown remaining. -/
def c3wst : GameEngine := GameEngine.init
  ((Team.make "TA").add_character (Character.make "K" 10 2 0 5 "TA" 0 [] []))
  ((Team.make "TB").add_character
    { Character.make "V" 10 2 0 3 "TB" 0
        [{ Ability.make "Q" 1 3 none with current_cooldown := 2 }] [] with
      current_hp := 0, alive := false })

/-- Squads for the status-wipe counterexample: each side's only member
poisons the other in turn 1 (magnitude 100, attached at the flush); in turn
2 the status phase kills both, so the alive list is empty and the loop
breaks before appending turn 2's record. -/
def c4A : Team := (Team.make "TA").add_character
  (Character.make "P" 30 1 0 2 "TA" 0
    [Ability.make "VenomA" 1 1 (some ⟨"PoisonA", 1, 100, "poison"⟩)] [])

def c4B : Team := (Team.make "TB").add_character
  (Character.make "Q" 30 1 0 1 "TB" 0
    [Ability.make "VenomB" 1 1 (some ⟨"PoisonB", 1, 100, "poison"⟩)] [])

/-- Constant draws: a 0.1 float (so the 0.3 ability roll always succeeds)
and index 0. -/
def c4rng : Nat → RandDraw := fun _ => ⟨mkRat 1 10, 0⟩

/-- One-member squads for the turn-ordering witness: "A1" (speed 5) and
"B1" (speed 3) trade plain attacks in turn 1, in speed order. -/
def c6A : Team := (Team.make "TA").add_character (Character.make "A1" 20 3 0 5 "TA" 0 [] [])

def c6B : Team := (Team.make "TB").add_character (Character.make "B1" 20 2 0 3 "TB" 0 [] [])

def c6st : GameEngine := GameEngine.init c6A c6B

/-- Constant draws: 0.5 floats (no miss, no crit) and index 0. -/
def c6rng : Nat → RandDraw := fun _ => ⟨mkRat 1 2, 0⟩

/-! ### Well-formedness for the health-bounds invariant

The squads the spec discusses carry nonnegative attack values and
nonnegative status-effect magnitudes; under that precondition every health
value stays within `[0, max_hp]` throughout a run. -/

/-- The status effect an ability can grant has nonnegative magnitude. -/
def Ability.wfb (a : Ability) : Bool :=
  match a.effect with
  | some e => 0 ≤ e.effect_value
  | none => true

/-- `0 ≤ current_hp ≤ max_hp`, nonnegative attack, and nonnegative
magnitudes on every held status effect and every ability-granted effect. -/
def Character.wfb (c : Character) : Bool :=
  (0 ≤ c.current_hp) && (c.current_hp ≤ c.max_hp) && (0 ≤ c.attack)
    && c.status_effects.all (fun e => 0 ≤ e.effect_value)
    && c.abilities.all Ability.wfb

/-- A queued event applies only nonnegative damage / nonnegative-magnitude
effects at the flush. -/
def Event.wfb : Event → Bool
  | .criticalHit _ _ _ extra => 0 ≤ extra
  | .miss _ _ => true
  | .abilityUsed _ _ eff _ =>
    match eff with
    | some e => 0 ≤ e.effect_value
    | none => true

/-- Engine-wide well-formedness: every rostered character and every queued
event is well-formed. -/
def GameEngine.wfb (st : GameEngine) : Bool :=
  st.team_a.characters.all Character.wfb && st.team_b.characters.all Character.wfb
    && st.event_log.all Event.wfb

/-! ### Erasure of uuid-derived data

`uuid.uuid4()` reads OS entropy, not the seeded generator, so the drawn hex
strings are the one input a seed does not determine.  They reach the log
only as the `event_id` inside each queued event and, through `str(event)`,
inside each turn record's `events` list. -/

/-- Blank out an event's `event_id` (the only uuid-derived field). -/
def Event.erase_id : Event → Event
  | .criticalHit _ d t x => .criticalHit "" d t x
  | .miss _ d => .miss "" d
  | .abilityUsed _ d e t => .abilityUsed "" d e t

/-- Drop a turn record's `events` list (whose strings embed the uuids);
result records are untouched. -/
def LogEntry.erase_events : LogEntry → LogEntry
  | .turn n acts se _ => .turn n acts se none
  | .result r f => .result r f

/-- Two engine states that differ only in uuid-derived data: equal teams,
scalars and draw positions, equal logs after erasing the `events` lists,
and equal event queues after erasing the event ids. -/
def GameEngine.uuid_variant (s1 s2 : GameEngine) : Prop :=
  s1.team_a = s2.team_a ∧ s1.team_b = s2.team_b
    ∧ s1.turn_log.map LogEntry.erase_events = s2.turn_log.map LogEntry.erase_events
    ∧ s1.event_log.map Event.erase_id = s2.event_log.map Event.erase_id
    ∧ s1.battle_over = s2.battle_over ∧ s1.turn_count = s2.turn_count
    ∧ s1.rng_idx = s2.rng_idx ∧ s1.uuid_idx = s2.uuid_idx

/-! ### Helper lemmas -/

@[simp] theorem GameEngine.getTeam_a (st : GameEngine) : st.getTeam Side.a = st.team_a := rfl

@[simp] theorem GameEngine.getTeam_b (st : GameEngine) : st.getTeam Side.b = st.team_b := rfl

@[simp] theorem GameEngine.setChar_turn_log (st : GameEngine) (r : CharRef) (c : Character) :
    (st.setChar r c).turn_log = st.turn_log := by
  obtain ⟨s, i⟩ := r; cases s <;> rfl

@[simp] theorem GameEngine.setChar_event_log (st : GameEngine) (r : CharRef) (c : Character) :
    (st.setChar r c).event_log = st.event_log := by
  obtain ⟨s, i⟩ := r; cases s <;> rfl

@[simp] theorem GameEngine.setChar_battle_over (st : GameEngine) (r : CharRef) (c : Character) :
    (st.setChar r c).battle_over = st.battle_over := by
  obtain ⟨s, i⟩ := r; cases s <;> rfl

@[simp] theorem GameEngine.setChar_turn_count (st : GameEngine) (r : CharRef) (c : Character) :
    (st.setChar r c).turn_count = st.turn_count := by
  obtain ⟨s, i⟩ := r; cases s <;> rfl

@[simp] theorem GameEngine.setChar_rng_idx (st : GameEngine) (r : CharRef) (c : Character) :
    (st.setChar r c).rng_idx = st.rng_idx := by
  obtain ⟨s, i⟩ := r; cases s <;> rfl

@[simp] theorem GameEngine.setChar_uuid_idx (st : GameEngine) (r : CharRef) (c : Character) :
    (st.setChar r c).uuid_idx = st.uuid_idx := by
  obtain ⟨s, i⟩ := r; cases s <;> rfl

@[simp] theorem GameEngine.setChar_team_id_a (st : GameEngine) (r : CharRef) (c : Character) :
    (st.setChar r c).team_a.team_id = st.team_a.team_id := by
  obtain ⟨s, i⟩ := r; cases s <;> rfl

@[simp] theorem GameEngine.setChar_team_id_b (st : GameEngine) (r : CharRef) (c : Character) :
    (st.setChar r c).team_b.team_id = st.team_b.team_id := by
  obtain ⟨s, i⟩ := r; cases s <;> rfl

@[simp] theorem GameEngine.setChar_length_a (st : GameEngine) (r : CharRef) (c : Character) :
    (st.setChar r c).team_a.characters.length = st.team_a.characters.length := by
  obtain ⟨s, i⟩ := r; cases s <;> simp [GameEngine.setChar]

@[simp] theorem GameEngine.setChar_length_b (st : GameEngine) (r : CharRef) (c : Character) :
    (st.setChar r c).team_b.characters.length = st.team_b.characters.length := by
  obtain ⟨s, i⟩ := r; cases s <;> simp [GameEngine.setChar]

theorem getD_set_ne {α : Type _} (l : List α) {i j : Nat} (h : i ≠ j) (x d : α) :
    (l.set i x).getD j d = l.getD j d := by
  simp [List.getD_eq_getElem?_getD, List.getElem?_set_ne h]

theorem GameEngine.getChar_setChar_ne (st : GameEngine) {r r' : CharRef} (h : r ≠ r')
    (c : Character) : (st.setChar r c).getChar r' = st.getChar r' := by
  obtain ⟨s, i⟩ := r
  obtain ⟨s', i'⟩ := r'
  cases s <;> cases s' <;>
    simp only [GameEngine.setChar, GameEngine.getChar, GameEngine.getTeam] <;>
    first
      | rfl
      | · apply getD_set_ne
          intro hii
          exact h (by simp [hii])

theorem GameEngine.getChar_setChar_self (st : GameEngine) (r : CharRef)
    (hv : r.idx < ((st.getTeam r.side).characters).length) (c : Character) :
    (st.setChar r c).getChar r = c := by
  obtain ⟨s, i⟩ := r
  cases s <;>
    simp_all [GameEngine.setChar, GameEngine.getChar, GameEngine.getTeam,
      List.getD_eq_getElem?_getD, List.getElem?_set_self]

theorem GameEngine.setChar_out_of_range (st : GameEngine) (r : CharRef)
    (hv : ((st.getTeam r.side).characters).length ≤ r.idx) (c : Character) :
    st.setChar r c = st := by
  obtain ⟨s, i⟩ := r
  cases s <;>
    simp_all [GameEngine.setChar, GameEngine.getTeam, List.set_eq_of_length_le]

/-! Character-level frame facts: during a turn no operation ever changes a
character's `name`, `speed` or `position` (only `rearrange_formation`, which
the engine never calls, writes `position`), and only `tick_abilities` /
`use` change the `abilities` list. -/

@[simp] theorem Character.take_damage_name (c : Character) (n : Int) :
    (c.take_damage n).name = c.name := by
  simp only [Character.take_damage]; split <;> rfl

@[simp] theorem Character.take_damage_speed (c : Character) (n : Int) :
    (c.take_damage n).speed = c.speed := by
  simp only [Character.take_damage]; split <;> rfl

@[simp] theorem Character.take_damage_position (c : Character) (n : Int) :
    (c.take_damage n).position = c.position := by
  simp only [Character.take_damage]; split <;> rfl

@[simp] theorem Character.take_damage_abilities (c : Character) (n : Int) :
    (c.take_damage n).abilities = c.abilities := by
  simp only [Character.take_damage]; split <;> rfl

@[simp] theorem Character.take_damage_max_hp (c : Character) (n : Int) :
    (c.take_damage n).max_hp = c.max_hp := by
  simp only [Character.take_damage]; split <;> rfl

@[simp] theorem Character.take_damage_attack (c : Character) (n : Int) :
    (c.take_damage n).attack = c.attack := by
  simp only [Character.take_damage]; split <;> rfl

@[simp] theorem Character.take_damage_status_effects (c : Character) (n : Int) :
    (c.take_damage n).status_effects = c.status_effects := by
  simp only [Character.take_damage]; split <;> rfl

@[simp] theorem Character.take_damage_team_id (c : Character) (n : Int) :
    (c.take_damage n).team_id = c.team_id := by
  simp only [Character.take_damage]; split <;> rfl

@[simp] theorem Character.heal_name (c : Character) (n : Int) :
    (c.heal n).name = c.name := by
  simp only [Character.heal]; split <;> rfl

@[simp] theorem Character.heal_speed (c : Character) (n : Int) :
    (c.heal n).speed = c.speed := by
  simp only [Character.heal]; split <;> rfl

@[simp] theorem Character.heal_position (c : Character) (n : Int) :
    (c.heal n).position = c.position := by
  simp only [Character.heal]; split <;> rfl

@[simp] theorem Character.heal_abilities (c : Character) (n : Int) :
    (c.heal n).abilities = c.abilities := by
  simp only [Character.heal]; split <;> rfl

@[simp] theorem Character.heal_max_hp (c : Character) (n : Int) :
    (c.heal n).max_hp = c.max_hp := by
  simp only [Character.heal]; split <;> rfl

@[simp] theorem Character.heal_attack (c : Character) (n : Int) :
    (c.heal n).attack = c.attack := by
  simp only [Character.heal]; split <;> rfl

@[simp] theorem Character.heal_status_effects (c : Character) (n : Int) :
    (c.heal n).status_effects = c.status_effects := by
  simp only [Character.heal]; split <;> rfl

@[simp] theorem Character.heal_team_id (c : Character) (n : Int) :
    (c.heal n).team_id = c.team_id := by
  simp only [Character.heal]; split <;> rfl

@[simp] theorem Character.add_status_effect_name (c : Character) (e : StatusEffect) :
    (c.add_status_effect e).name = c.name := rfl

@[simp] theorem Character.add_status_effect_speed (c : Character) (e : StatusEffect) :
    (c.add_status_effect e).speed = c.speed := rfl

@[simp] theorem Character.add_status_effect_position (c : Character) (e : StatusEffect) :
    (c.add_status_effect e).position = c.position := rfl

@[simp] theorem Character.add_status_effect_abilities (c : Character) (e : StatusEffect) :
    (c.add_status_effect e).abilities = c.abilities := rfl

@[simp] theorem Character.add_status_effect_max_hp (c : Character) (e : StatusEffect) :
    (c.add_status_effect e).max_hp = c.max_hp := rfl

@[simp] theorem Character.add_status_effect_current_hp (c : Character) (e : StatusEffect) :
    (c.add_status_effect e).current_hp = c.current_hp := rfl

@[simp] theorem Character.add_status_effect_alive (c : Character) (e : StatusEffect) :
    (c.add_status_effect e).alive = c.alive := rfl

@[simp] theorem Character.add_status_effect_attack (c : Character) (e : StatusEffect) :
    (c.add_status_effect e).attack = c.attack := rfl

@[simp] theorem Character.add_status_effect_team_id (c : Character) (e : StatusEffect) :
    (c.add_status_effect e).team_id = c.team_id := rfl

@[simp] theorem Character.tick_abilities_name (c : Character) :
    c.tick_abilities.name = c.name := rfl

@[simp] theorem Character.tick_abilities_speed (c : Character) :
    c.tick_abilities.speed = c.speed := rfl

@[simp] theorem Character.tick_abilities_position (c : Character) :
    c.tick_abilities.position = c.position := rfl

@[simp] theorem Character.tick_abilities_max_hp (c : Character) :
    c.tick_abilities.max_hp = c.max_hp := rfl

@[simp] theorem Character.tick_abilities_current_hp (c : Character) :
    c.tick_abilities.current_hp = c.current_hp := rfl

@[simp] theorem Character.tick_abilities_alive (c : Character) :
    c.tick_abilities.alive = c.alive := rfl

@[simp] theorem Character.tick_abilities_attack (c : Character) :
    c.tick_abilities.attack = c.attack := rfl

@[simp] theorem Character.tick_abilities_status_effects (c : Character) :
    c.tick_abilities.status_effects = c.status_effects := rfl

@[simp] theorem Character.tick_abilities_team_id (c : Character) :
    c.tick_abilities.team_id = c.team_id := rfl

@[simp] theorem StatusEffect.apply_effect_name (e : StatusEffect) (c : Character) :
    (e.apply_effect c).name = c.name := by
  unfold StatusEffect.apply_effect
  repeat' split
  all_goals simp

@[simp] theorem StatusEffect.apply_effect_speed (e : StatusEffect) (c : Character) :
    (e.apply_effect c).speed = c.speed := by
  unfold StatusEffect.apply_effect
  repeat' split
  all_goals simp

@[simp] theorem StatusEffect.apply_effect_position (e : StatusEffect) (c : Character) :
    (e.apply_effect c).position = c.position := by
  unfold StatusEffect.apply_effect
  repeat' split
  all_goals simp

@[simp] theorem StatusEffect.apply_effect_abilities (e : StatusEffect) (c : Character) :
    (e.apply_effect c).abilities = c.abilities := by
  unfold StatusEffect.apply_effect
  repeat' split
  all_goals simp

@[simp] theorem StatusEffect.apply_effect_max_hp (e : StatusEffect) (c : Character) :
    (e.apply_effect c).max_hp = c.max_hp := by
  unfold StatusEffect.apply_effect
  repeat' split
  all_goals simp

@[simp] theorem StatusEffect.apply_effect_team_id (e : StatusEffect) (c : Character) :
    (e.apply_effect c).team_id = c.team_id := by
  unfold StatusEffect.apply_effect
  repeat' split
  all_goals simp

theorem processEffectsAux_name (c : Character) (l : List StatusEffect) :
    (processEffectsAux c l).1.name = c.name := by
  induction l generalizing c with
  | nil => rfl
  | cons e rest ih => simp [processEffectsAux, ih]

theorem processEffectsAux_speed (c : Character) (l : List StatusEffect) :
    (processEffectsAux c l).1.speed = c.speed := by
  induction l generalizing c with
  | nil => rfl
  | cons e rest ih => simp [processEffectsAux, ih]

theorem processEffectsAux_position (c : Character) (l : List StatusEffect) :
    (processEffectsAux c l).1.position = c.position := by
  induction l generalizing c with
  | nil => rfl
  | cons e rest ih => simp [processEffectsAux, ih]

theorem processEffectsAux_abilities (c : Character) (l : List StatusEffect) :
    (processEffectsAux c l).1.abilities = c.abilities := by
  induction l generalizing c with
  | nil => rfl
  | cons e rest ih => simp [processEffectsAux, ih]

theorem processEffectsAux_max_hp (c : Character) (l : List StatusEffect) :
    (processEffectsAux c l).1.max_hp = c.max_hp := by
  induction l generalizing c with
  | nil => rfl
  | cons e rest ih => simp [processEffectsAux, ih]

theorem processEffectsAux_team_id (c : Character) (l : List StatusEffect) :
    (processEffectsAux c l).1.team_id = c.team_id := by
  induction l generalizing c with
  | nil => rfl
  | cons e rest ih => simp [processEffectsAux, ih]

@[simp] theorem Character.process_status_effects_name (c : Character) :
    c.process_status_effects.1.name = c.name := by
  simp [Character.process_status_effects, processEffectsAux_name]

@[simp] theorem Character.process_status_effects_speed (c : Character) :
    c.process_status_effects.1.speed = c.speed := by
  simp [Character.process_status_effects, processEffectsAux_speed]

@[simp] theorem Character.process_status_effects_position (c : Character) :
    c.process_status_effects.1.position = c.position := by
  simp [Character.process_status_effects, processEffectsAux_position]

@[simp] theorem Character.process_status_effects_abilities (c : Character) :
    c.process_status_effects.1.abilities = c.abilities := by
  simp [Character.process_status_effects, processEffectsAux_abilities]

@[simp] theorem Character.process_status_effects_max_hp (c : Character) :
    c.process_status_effects.1.max_hp = c.max_hp := by
  simp [Character.process_status_effects, processEffectsAux_max_hp]

@[simp] theorem Character.process_status_effects_team_id (c : Character) :
    c.process_status_effects.1.team_id = c.team_id := by
  simp [Character.process_status_effects, processEffectsAux_team_id]

/-! Engine-level frame facts: the status phase and the per-fighter action
functions never touch the confrontation log, the turn counter, or the
`battle_over` flag (only the action loop's defeat check sets the latter). -/

theorem statusStep_proj {β : Type _} (g : GameEngine → β)
    (hg : ∀ st r c, g (st.setChar r c) = g st) (acc : GameEngine × List String)
    (r : CharRef) : g (statusStep acc r).1 = g acc.1 := by
  simp [statusStep, hg]

theorem foldl_statusStep_proj {β : Type _} (g : GameEngine → β)
    (hg : ∀ st r c, g (st.setChar r c) = g st) (refs : List CharRef)
    (acc : GameEngine × List String) :
    g (refs.foldl statusStep acc).1 = g acc.1 := by
  induction refs generalizing acc with
  | nil => rfl
  | cons r rs ih => rw [List.foldl_cons, ih, statusStep_proj g hg]

@[simp] theorem GameEngine.process_status_phase_turn_log (st : GameEngine) :
    st.process_status_phase.1.turn_log = st.turn_log :=
  foldl_statusStep_proj _ GameEngine.setChar_turn_log _ _

@[simp] theorem GameEngine.process_status_phase_event_log (st : GameEngine) :
    st.process_status_phase.1.event_log = st.event_log :=
  foldl_statusStep_proj _ GameEngine.setChar_event_log _ _

@[simp] theorem GameEngine.process_status_phase_battle_over (st : GameEngine) :
    st.process_status_phase.1.battle_over = st.battle_over :=
  foldl_statusStep_proj _ GameEngine.setChar_battle_over _ _

@[simp] theorem GameEngine.process_status_phase_turn_count (st : GameEngine) :
    st.process_status_phase.1.turn_count = st.turn_count :=
  foldl_statusStep_proj _ GameEngine.setChar_turn_count _ _

@[simp] theorem GameEngine.choose_target_turn_log (st : GameEngine) (rng : Nat → RandDraw)
    (f : Character) : (st.choose_target rng f).2.turn_log = st.turn_log := by
  unfold GameEngine.choose_target drawChoice
  dsimp only
  repeat' split
  all_goals rfl

@[simp] theorem GameEngine.choose_target_turn_count (st : GameEngine) (rng : Nat → RandDraw)
    (f : Character) : (st.choose_target rng f).2.turn_count = st.turn_count := by
  unfold GameEngine.choose_target drawChoice
  dsimp only
  repeat' split
  all_goals rfl

@[simp] theorem GameEngine.choose_target_battle_over (st : GameEngine) (rng : Nat → RandDraw)
    (f : Character) : (st.choose_target rng f).2.battle_over = st.battle_over := by
  unfold GameEngine.choose_target drawChoice
  dsimp only
  repeat' split
  all_goals rfl

theorem GameEngine.basic_attack_turn_log (st : GameEngine) (rng : Nat → RandDraw)
    (uuids : Nat → String) (fref : CharRef) (record : ActionRecord) :
    (st.basic_attack rng uuids fref record).1.turn_log = st.turn_log := by
  unfold GameEngine.basic_attack drawFloat drawUuid
  dsimp only
  repeat' split
  all_goals simp [GameEngine.modifyChar]

theorem GameEngine.basic_attack_turn_count (st : GameEngine) (rng : Nat → RandDraw)
    (uuids : Nat → String) (fref : CharRef) (record : ActionRecord) :
    (st.basic_attack rng uuids fref record).1.turn_count = st.turn_count := by
  unfold GameEngine.basic_attack drawFloat drawUuid
  dsimp only
  repeat' split
  all_goals simp [GameEngine.modifyChar]

theorem GameEngine.basic_attack_battle_over (st : GameEngine) (rng : Nat → RandDraw)
    (uuids : Nat → String) (fref : CharRef) (record : ActionRecord) :
    (st.basic_attack rng uuids fref record).1.battle_over = st.battle_over := by
  unfold GameEngine.basic_attack drawFloat drawUuid
  dsimp only
  repeat' split
  all_goals simp [GameEngine.modifyChar]

theorem GameEngine.ability_action_turn_log (st : GameEngine) (rng : Nat → RandDraw)
    (uuids : Nat → String) (fref : CharRef) (record : ActionRecord) (availIdx : List Nat) :
    (st.ability_action rng uuids fref record availIdx).1.turn_log = st.turn_log := by
  unfold GameEngine.ability_action drawChoice drawUuid
  dsimp only
  repeat' split
  all_goals simp [GameEngine.modifyChar]

theorem GameEngine.ability_action_turn_count (st : GameEngine) (rng : Nat → RandDraw)
    (uuids : Nat → String) (fref : CharRef) (record : ActionRecord) (availIdx : List Nat) :
    (st.ability_action rng uuids fref record availIdx).1.turn_count = st.turn_count := by
  unfold GameEngine.ability_action drawChoice drawUuid
  dsimp only
  repeat' split
  all_goals simp [GameEngine.modifyChar]

theorem GameEngine.ability_action_battle_over (st : GameEngine) (rng : Nat → RandDraw)
    (uuids : Nat → String) (fref : CharRef) (record : ActionRecord) (availIdx : List Nat) :
    (st.ability_action rng uuids fref record availIdx).1.battle_over = st.battle_over := by
  unfold GameEngine.ability_action drawChoice drawUuid
  dsimp only
  repeat' split
  all_goals simp [GameEngine.modifyChar]

@[simp] theorem GameEngine.perform_action_turn_log (st : GameEngine) (rng : Nat → RandDraw)
    (uuids : Nat → String) (fref : CharRef) :
    (st.perform_action rng uuids fref).1.turn_log = st.turn_log := by
  unfold GameEngine.perform_action drawFloat
  dsimp only
  repeat' split
  all_goals simp [GameEngine.basic_attack_turn_log, GameEngine.ability_action_turn_log]

@[simp] theorem GameEngine.perform_action_turn_count (st : GameEngine) (rng : Nat → RandDraw)
    (uuids : Nat → String) (fref : CharRef) :
    (st.perform_action rng uuids fref).1.turn_count = st.turn_count := by
  unfold GameEngine.perform_action drawFloat
  dsimp only
  repeat' split
  all_goals simp [GameEngine.basic_attack_turn_count, GameEngine.ability_action_turn_count]

@[simp] theorem GameEngine.perform_action_battle_over (st : GameEngine) (rng : Nat → RandDraw)
    (uuids : Nat → String) (fref : CharRef) :
    (st.perform_action rng uuids fref).1.battle_over = st.battle_over := by
  unfold GameEngine.perform_action drawFloat
  dsimp only
  repeat' split
  all_goals simp [GameEngine.basic_attack_battle_over, GameEngine.ability_action_battle_over]

@[simp] theorem drawFloat_fst (rng : Nat → RandDraw) (st : GameEngine) :
    (drawFloat rng st).1 = (rng st.rng_idx).fl := rfl

@[simp] theorem drawFloat_snd (rng : Nat → RandDraw) (st : GameEngine) :
    (drawFloat rng st).2 = { st with rng_idx := st.rng_idx + 1 } := rfl

@[simp] theorem drawChoice_fst (rng : Nat → RandDraw) (st : GameEngine) (n : Nat) :
    (drawChoice rng st n).1 = (rng st.rng_idx).ix % n := rfl

@[simp] theorem drawChoice_snd (rng : Nat → RandDraw) (st : GameEngine) (n : Nat) :
    (drawChoice rng st n).2 = { st with rng_idx := st.rng_idx + 1 } := rfl

@[simp] theorem drawUuid_fst (uuids : Nat → String) (st : GameEngine) :
    (drawUuid uuids st).1 = uuids st.uuid_idx := rfl

@[simp] theorem drawUuid_snd (uuids : Nat → String) (st : GameEngine) :
    (drawUuid uuids st).2 = { st with uuid_idx := st.uuid_idx + 1 } := rfl

theorem GameEngine.getChar_modifyChar_self (st : GameEngine) (r : CharRef)
    (f : Character → Character) (hv : r.idx < ((st.getTeam r.side).characters).length) :
    (st.modifyChar r f).getChar r = f (st.getChar r) :=
  GameEngine.getChar_setChar_self st r hv _

theorem GameEngine.getTeam_congr (t : GameEngine) {S : GameEngine} (hA : S.team_a = t.team_a)
    (hB : S.team_b = t.team_b) (s : Side) : S.getTeam s = t.getTeam s := by
  cases s <;> simp [GameEngine.getTeam, hA, hB]

theorem GameEngine.getChar_congr_teams (t : GameEngine) {S : GameEngine}
    (hA : S.team_a = t.team_a) (hB : S.team_b = t.team_b) (r : CharRef) :
    S.getChar r = t.getChar r := by
  unfold GameEngine.getChar
  rw [GameEngine.getTeam_congr t hA hB]

/-- `modifyChar` through any state whose teams agree with a reference state
`t`: the slot is overwritten with `f` of the reference value. -/
theorem GameEngine.getChar_modifyChar_of_teams (t : GameEngine) {S : GameEngine}
    (hA : S.team_a = t.team_a) (hB : S.team_b = t.team_b) (r : CharRef)
    (f : Character → Character)
    (hv : r.idx < ((t.getTeam r.side).characters).length) :
    (S.modifyChar r f).getChar r = f (t.getChar r) := by
  rw [GameEngine.getChar_modifyChar_self S r f
    (by rw [GameEngine.getTeam_congr t hA hB]; exact hv)]
  rw [GameEngine.getChar_congr_teams t hA hB]

theorem GameEngine.setChar_getTeam_length (st : GameEngine) (r : CharRef) (c : Character)
    (s : Side) : (((st.setChar r c).getTeam s).characters).length
      = ((st.getTeam s).characters).length := by
  cases s <;> simp

/-- Every reference produced by `alive_refs` points into the team: its side
is the given side and its index is in range. -/
theorem Team.alive_refs_mem {t : Team} {s : Side} {r : CharRef}
    (h : r ∈ t.alive_refs s) : r.side = s ∧ r.idx < t.characters.length := by
  unfold Team.alive_refs at h
  simp only [List.mem_map, List.mem_filter, List.mem_range] at h
  obtain ⟨i, ⟨hi, _⟩, rfl⟩ := h
  exact ⟨rfl, hi⟩

theorem getD_mem_of_lt {α : Type _} {l : List α} {k : Nat} (h : k < l.length) (d : α) :
    l.getD k d ∈ l := by
  rw [List.getD_eq_getElem l d h]
  exact List.getElem_mem h

/-! Event-flush structure: processing an event never touches the log, and
pushing an event string only extends the `events` list of the final log
entry. -/

@[simp] theorem Event.process_turn_log (e : Event) (st : GameEngine) :
    (e.process st).turn_log = st.turn_log := by
  cases e with
  | criticalHit i d t x => simp [Event.process, GameEngine.modifyChar]
  | miss i d => rfl
  | abilityUsed i d eff tgt =>
    cases eff <;> cases tgt <;> simp [Event.process, GameEngine.modifyChar]

@[simp] theorem Event.process_turn_count (e : Event) (st : GameEngine) :
    (e.process st).turn_count = st.turn_count := by
  cases e with
  | criticalHit i d t x => simp [Event.process, GameEngine.modifyChar]
  | miss i d => rfl
  | abilityUsed i d eff tgt =>
    cases eff <;> cases tgt <;> simp [Event.process, GameEngine.modifyChar]

@[simp] theorem Event.process_battle_over (e : Event) (st : GameEngine) :
    (e.process st).battle_over = st.battle_over := by
  cases e with
  | criticalHit i d t x => simp [Event.process, GameEngine.modifyChar]
  | miss i d => rfl
  | abilityUsed i d eff tgt =>
    cases eff <;> cases tgt <;> simp [Event.process, GameEngine.modifyChar]

@[simp] theorem GameEngine.push_event_string_turn_count (st : GameEngine) (s : String) :
    (st.push_event_string s).turn_count = st.turn_count := by
  unfold GameEngine.push_event_string
  cases st.turn_log.getLast? <;> rfl

@[simp] theorem GameEngine.push_event_string_getChar (st : GameEngine) (s : String)
    (r : CharRef) : (st.push_event_string s).getChar r = st.getChar r := by
  unfold GameEngine.push_event_string
  cases st.turn_log.getLast? <;> rfl

@[simp] theorem GameEngine.push_event_string_team_a (st : GameEngine) (s : String) :
    (st.push_event_string s).team_a = st.team_a := by
  unfold GameEngine.push_event_string
  cases st.turn_log.getLast? <;> rfl

@[simp] theorem GameEngine.push_event_string_team_b (st : GameEngine) (s : String) :
    (st.push_event_string s).team_b = st.team_b := by
  unfold GameEngine.push_event_string
  cases st.turn_log.getLast? <;> rfl

@[simp] theorem GameEngine.push_event_string_event_log (st : GameEngine) (s : String) :
    (st.push_event_string s).event_log = st.event_log := by
  unfold GameEngine.push_event_string
  cases st.turn_log.getLast? <;> rfl

@[simp] theorem GameEngine.push_event_string_battle_over (st : GameEngine) (s : String) :
    (st.push_event_string s).battle_over = st.battle_over := by
  unfold GameEngine.push_event_string
  cases st.turn_log.getLast? <;> rfl

@[simp] theorem eventStep_turn_count (st : GameEngine) (e : Event) :
    (eventStep st e).turn_count = st.turn_count := by
  simp [eventStep]

@[simp] theorem eventStep_battle_over (st : GameEngine) (e : Event) :
    (eventStep st e).battle_over = st.battle_over := by
  simp [eventStep]

theorem foldl_eventStep_proj {β : Type _} (g : GameEngine → β)
    (hg : ∀ st e, g (eventStep st e) = g st) (evs : List Event) :
    ∀ st : GameEngine, g (evs.foldl eventStep st) = g st := by
  induction evs with
  | nil => intro st; rfl
  | cons e es ih => intro st; rw [List.foldl_cons, ih, hg]

@[simp] theorem GameEngine.process_events_turn_count (st : GameEngine) :
    st.process_events.turn_count = st.turn_count := by
  unfold GameEngine.process_events
  rw [foldl_eventStep_proj _ eventStep_turn_count]

@[simp] theorem GameEngine.process_events_battle_over (st : GameEngine) :
    st.process_events.battle_over = st.battle_over := by
  unfold GameEngine.process_events
  rw [foldl_eventStep_proj _ eventStep_battle_over]

theorem GameEngine.push_event_string_entry (st : GameEngine) (s : String)
    {l : List LogEntry} {n : Nat} {acts : List ActionRecord} {se : Option (List String)}
    {ev : Option (List String)} (h : st.turn_log = l ++ [LogEntry.turn n acts se ev]) :
    (st.push_event_string s).turn_log
      = l ++ [LogEntry.turn n acts se (some (ev.getD [] ++ [s]))] := by
  unfold GameEngine.push_event_string
  rw [h]
  simp [List.getLast?_concat, List.dropLast_concat, LogEntry.push_event]

theorem foldl_eventStep_entry (evs : List Event) :
    ∀ (st : GameEngine) {l : List LogEntry} {n : Nat} {acts : List ActionRecord}
      {se : Option (List String)} {ev : Option (List String)},
      st.turn_log = l ++ [LogEntry.turn n acts se ev] →
      ∃ ev', (evs.foldl eventStep st).turn_log = l ++ [LogEntry.turn n acts se ev'] := by
  induction evs with
  | nil =>
    intro st l n acts se ev h
    exact ⟨ev, h⟩
  | cons e es ih =>
    intro st l n acts se ev h
    rw [List.foldl_cons]
    have h1 : (Event.process e st).turn_log = l ++ [LogEntry.turn n acts se ev] := by
      rw [Event.process_turn_log]
      exact h
    exact ih _ (GameEngine.push_event_string_entry (Event.process e st) e.str h1)

theorem GameEngine.process_events_entry (st : GameEngine)
    {l : List LogEntry} {n : Nat} {acts : List ActionRecord} {se : Option (List String)}
    {ev : Option (List String)} (h : st.turn_log = l ++ [LogEntry.turn n acts se ev]) :
    ∃ ev', st.process_events.turn_log = l ++ [LogEntry.turn n acts se ev'] := by
  unfold GameEngine.process_events
  exact foldl_eventStep_entry _ _ h

/-- Flushing a queue holding exactly one CriticalHit event applies its extra
damage to its target (and only pushes a string into the log). -/
theorem process_events_crit_end (S : GameEngine) {i d : String} (tref : CharRef) (x : Int)
    (c : Character)
    (hlog : S.event_log = [Event.criticalHit i d tref x])
    (hv : tref.idx < ((S.getTeam tref.side).characters).length)
    (hc : S.getChar tref = c) :
    S.process_events.getChar tref = c.take_damage x := by
  unfold GameEngine.process_events
  rw [hlog]
  simp only [List.foldl_cons, List.foldl_nil, eventStep, Event.process,
    GameEngine.push_event_string_getChar]
  rw [GameEngine.getChar_modifyChar_of_teams S (by rfl) (by rfl) tref _ hv]
  rw [hc]

/-! Action-loop frame facts. -/

theorem GameEngine.action_loop_turn_log (rng : Nat → RandDraw) (uuids : Nat → String)
    (refs : List CharRef) (st : GameEngine) :
    (GameEngine.action_loop rng uuids st refs).1.turn_log = st.turn_log := by
  induction refs generalizing st with
  | nil => rfl
  | cons r rs ih =>
    unfold GameEngine.action_loop
    dsimp only
    split
    · exact ih st
    · split
      · simp [GameEngine.modifyChar]
      · simp [ih, GameEngine.modifyChar]

theorem GameEngine.action_loop_turn_count (rng : Nat → RandDraw) (uuids : Nat → String)
    (refs : List CharRef) (st : GameEngine) :
    (GameEngine.action_loop rng uuids st refs).1.turn_count = st.turn_count := by
  induction refs generalizing st with
  | nil => rfl
  | cons r rs ih =>
    unfold GameEngine.action_loop
    dsimp only
    split
    · exact ih st
    · split
      · simp [GameEngine.modifyChar]
      · simp [ih, GameEngine.modifyChar]

/-! Cooldown frame facts: the only operations that touch a character's
`abilities` list during a turn are its own `tick_abilities` (at its action
slot) and its own `use`; every other mutation (damage, healing, status
attachment) leaves every character's `abilities` unchanged. -/

theorem GameEngine.getChar_nonteam_mk (S : GameEngine) (el : List Event) (bo : Bool)
    (tc ri ui : Nat) (r : CharRef) :
    (GameEngine.mk S.team_a S.team_b S.turn_log el bo tc ri ui).getChar r
      = S.getChar r := by
  obtain ⟨s, i⟩ := r; cases s <;> rfl

theorem getChar_setChar_abilities (st : GameEngine) (r : CharRef) (x : Character)
    (c : CharRef) (hx : x.abilities = (st.getChar r).abilities) :
    ((st.setChar r x).getChar c).abilities = ((st.getChar c).abilities) := by
  by_cases hrc : r = c
  · subst hrc
    by_cases hv : r.idx < ((st.getTeam r.side).characters).length
    · rw [GameEngine.getChar_setChar_self st r hv x, hx]
    · rw [GameEngine.setChar_out_of_range st r (Nat.le_of_not_lt hv) x]
  · rw [GameEngine.getChar_setChar_ne st hrc x]

set_option maxHeartbeats 800000 in
theorem GameEngine.perform_action_abilities_ne (st : GameEngine) (rng : Nat → RandDraw)
    (uuids : Nat → String) (fref c : CharRef) (hc : c ≠ fref) :
    (((st.perform_action rng uuids fref).1).getChar c).abilities
      = ((st.getChar c).abilities) := by
  unfold GameEngine.perform_action GameEngine.basic_attack GameEngine.ability_action
    GameEngine.choose_target
  dsimp only
  repeat' split
  all_goals
    try simp only [drawFloat_fst, drawFloat_snd, drawChoice_fst, drawChoice_snd, drawUuid_fst,
      drawUuid_snd, GameEngine.modifyChar]
  all_goals
    first
      | rfl
      | (rw [GameEngine.getChar_nonteam_mk]
         done)
      | (rw [getChar_setChar_abilities _ _ _ _ (by simp)]
         rw [GameEngine.getChar_nonteam_mk]
         done)
      | (rw [getChar_setChar_abilities _ _ _ _ (by simp)]
         rw [GameEngine.getChar_nonteam_mk]
         rw [GameEngine.getChar_setChar_ne _ (Ne.symm hc) _]
         rw [GameEngine.getChar_nonteam_mk]
         done)

/-- The action loop never changes the abilities of a character that is not
in its fighter list: other fighters' actions only deal damage or attach
status effects. -/
theorem GameEngine.action_loop_abilities_frame (rng : Nat → RandDraw) (uuids : Nat → String) :
    ∀ (refs : List CharRef) (st : GameEngine) (c : CharRef), c ∉ refs →
      (((GameEngine.action_loop rng uuids st refs).1).getChar c).abilities
        = ((st.getChar c).abilities) := by
  intro refs
  induction refs with
  | nil =>
    intro st c _
    rfl
  | cons r rs ih =>
    intro st c hc
    have hcr : c ≠ r := fun h => hc (h ▸ List.mem_cons_self r rs)
    have hcrs : c ∉ rs := fun h => hc (List.mem_cons_of_mem r h)
    unfold GameEngine.action_loop
    dsimp only
    split
    · exact ih st c hcrs
    · split
      · rw [GameEngine.getChar_nonteam_mk]
        rw [GameEngine.perform_action_abilities_ne _ rng uuids r c hcr]
        simp only [GameEngine.modifyChar]
        rw [GameEngine.getChar_setChar_ne _ (Ne.symm hcr) _]
      · rw [ih _ c hcrs]
        rw [GameEngine.perform_action_abilities_ne _ rng uuids r c hcr]
        simp only [GameEngine.modifyChar]
        rw [GameEngine.getChar_setChar_ne _ (Ne.symm hcr) _]

/-- `battle_over` is untouched by the tick + action of a single fighter. -/
theorem GameEngine.action_step_battle_over (st : GameEngine) (rng : Nat → RandDraw)
    (uuids : Nat → String) (r : CharRef) :
    ((st.modifyChar r Character.tick_abilities).perform_action rng uuids r).1.battle_over
      = st.battle_over := by
  rw [GameEngine.perform_action_battle_over]
  simp [GameEngine.modifyChar]

@[simp] theorem Character.sortData_take_damage (c : Character) (n : Int) :
    (c.take_damage n).sortData = c.sortData := by
  simp [Character.sortData]

@[simp] theorem Character.sortData_heal (c : Character) (n : Int) :
    (c.heal n).sortData = c.sortData := by
  simp [Character.sortData]

@[simp] theorem Character.sortData_add_status_effect (c : Character) (e : StatusEffect) :
    (c.add_status_effect e).sortData = c.sortData := by
  simp [Character.sortData]

@[simp] theorem Character.sortData_tick_abilities (c : Character) :
    c.tick_abilities.sortData = c.sortData := by
  simp [Character.sortData]

@[simp] theorem Character.sortData_set_abilities (c : Character) (abs : List Ability) :
    ({ c with abilities := abs } : Character).sortData = c.sortData := by
  simp [Character.sortData]

@[simp] theorem Character.sortData_process_status_effects (c : Character) :
    c.process_status_effects.1.sortData = c.sortData := by
  simp [Character.sortData]

/-- Generic field transport through `setChar`: any projection the written
character agrees on with the overwritten slot is unchanged at every
reference. -/
theorem getChar_setChar_field {β : Type _} (g : Character → β) (st : GameEngine) (r : CharRef)
    (x : Character) (c : CharRef) (hx : g x = g (st.getChar r)) :
    g ((st.setChar r x).getChar c) = g (st.getChar c) := by
  by_cases hrc : r = c
  · subst hrc
    by_cases hv : r.idx < ((st.getTeam r.side).characters).length
    · rw [GameEngine.getChar_setChar_self st r hv x, hx]
    · rw [GameEngine.setChar_out_of_range st r (Nat.le_of_not_lt hv) x]
  · rw [GameEngine.getChar_setChar_ne st hrc x]

set_option maxHeartbeats 800000 in
theorem GameEngine.perform_action_sortData (st : GameEngine) (rng : Nat → RandDraw)
    (uuids : Nat → String) (fref c : CharRef) :
    (((st.perform_action rng uuids fref).1).getChar c).sortData
      = ((st.getChar c).sortData) := by
  unfold GameEngine.perform_action GameEngine.basic_attack GameEngine.ability_action
    GameEngine.choose_target
  dsimp only
  repeat' split
  all_goals
    try simp only [drawFloat_fst, drawFloat_snd, drawChoice_fst, drawChoice_snd, drawUuid_fst,
      drawUuid_snd, GameEngine.modifyChar]
  all_goals
    first
      | rfl
      | (rw [GameEngine.getChar_nonteam_mk]
         done)
      | (rw [getChar_setChar_field Character.sortData _ _ _ _ (by simp)]
         rw [GameEngine.getChar_nonteam_mk]
         done)
      | (rw [getChar_setChar_field Character.sortData _ _ _ _ (by simp)]
         rw [GameEngine.getChar_nonteam_mk]
         rw [getChar_setChar_field Character.sortData _ _ _ _ (by simp)]
         rw [GameEngine.getChar_nonteam_mk]
         done)

theorem GameEngine.action_loop_sortData (rng : Nat → RandDraw) (uuids : Nat → String) :
    ∀ (refs : List CharRef) (st : GameEngine) (c : CharRef),
      (((GameEngine.action_loop rng uuids st refs).1).getChar c).sortData
        = ((st.getChar c).sortData) := by
  intro refs
  induction refs with
  | nil =>
    intro st c
    rfl
  | cons r rs ih =>
    intro st c
    unfold GameEngine.action_loop
    dsimp only
    split
    · exact ih st c
    · split
      · rw [GameEngine.getChar_nonteam_mk]
        rw [GameEngine.perform_action_sortData]
        simp only [GameEngine.modifyChar]
        rw [getChar_setChar_field Character.sortData _ _ _ _ (by simp)]
      · rw [ih _ c]
        rw [GameEngine.perform_action_sortData]
        simp only [GameEngine.modifyChar]
        rw [getChar_setChar_field Character.sortData _ _ _ _ (by simp)]

theorem foldl_statusStep_getChar_sortData (refs : List CharRef) :
    ∀ (acc : GameEngine × List String) (c : CharRef),
      (((refs.foldl statusStep acc).1).getChar c).sortData = ((acc.1.getChar c).sortData) := by
  induction refs with
  | nil =>
    intro acc c
    rfl
  | cons r rs ih =>
    intro acc c
    rw [List.foldl_cons, ih]
    show ((statusStep acc r).1.getChar c).sortData = ((acc.1.getChar c).sortData)
    simp only [statusStep]
    rw [getChar_setChar_field Character.sortData _ _ _ _ (by simp)]

theorem GameEngine.process_status_phase_sortData (st : GameEngine) (c : CharRef) :
    ((st.process_status_phase.1).getChar c).sortData = ((st.getChar c).sortData) :=
  foldl_statusStep_getChar_sortData _ _ _


/-! The per-turn log discipline: each executed turn appends exactly one turn
record — except a turn in which the status phase leaves no fighter alive,
which sets `battle_over` and appends nothing. -/

theorem GameEngine.one_turn_turn_count (st : GameEngine) (rng : Nat → RandDraw)
    (uuids : Nat → String) : (st.one_turn rng uuids).turn_count = st.turn_count + 1 := by
  unfold GameEngine.one_turn
  dsimp only
  split
  · simp
  · simp [GameEngine.action_loop_turn_count]

theorem process_events_append_entry (s : GameEngine) (n : Nat) (acts : List ActionRecord)
    (se : Option (List String)) :
    ∃ ev', (GameEngine.process_events
        { s with turn_log := s.turn_log ++ [LogEntry.turn n acts se none] }).turn_log
      = s.turn_log ++ [LogEntry.turn n acts se ev'] :=
  GameEngine.process_events_entry _ rfl

/-- The precise case split for one turn's effect on the log: if the status
phase wipes every fighter, the turn appends nothing and ends the battle;
otherwise it appends exactly one record carrying this turn's number and the
status descriptions (key omitted iff there were none). -/
theorem GameEngine.one_turn_log_spec (st : GameEngine) (rng : Nat → RandDraw)
    (uuids : Nat → String) :
    if ({ st with turn_count := st.turn_count + 1 }.process_status_phase.1.all_alive_refs.isEmpty)
    then ((st.one_turn rng uuids).turn_log = st.turn_log
          ∧ (st.one_turn rng uuids).battle_over = true)
    else (∃ acts ev, (st.one_turn rng uuids).turn_log
          = st.turn_log ++ [LogEntry.turn (st.turn_count + 1) acts
              (if ({ st with turn_count := st.turn_count + 1 }).process_status_phase.2.isEmpty
                then none
                else some ({ st with turn_count := st.turn_count + 1 }).process_status_phase.2)
              ev]) := by
  by_cases hw :
      ({ st with turn_count := st.turn_count + 1 }.process_status_phase.1.all_alive_refs.isEmpty)
  · rw [if_pos hw]
    unfold GameEngine.one_turn
    dsimp only
    rw [if_pos hw]
    constructor
    · simp
    · rfl
  · rw [if_neg hw]
    unfold GameEngine.one_turn
    dsimp only
    rw [if_neg hw]
    set SP := ({ st with turn_count := st.turn_count + 1 } : GameEngine).process_status_phase
      with hSPdef
    set AL := GameEngine.action_loop rng uuids SP.1
      (SP.1.sorted_fighters SP.1.all_alive_refs) with hALdef
    obtain ⟨ev', hfin⟩ := process_events_append_entry AL.1 (st.turn_count + 1) AL.2
      (if SP.2.isEmpty then none else some SP.2)
    have hAL1 : AL.1.turn_log = st.turn_log := by
      rw [hALdef]
      rw [GameEngine.action_loop_turn_log]
      rw [hSPdef]
      simp
    nth_rewrite 2 [hAL1] at hfin
    exact ⟨AL.2, ev', hfin⟩

/-- Weaker corollary: every executed turn either appends nothing (ending the
battle) or appends exactly one turn record bearing the incremented turn
number. -/
theorem GameEngine.one_turn_log_cases (st : GameEngine) (rng : Nat → RandDraw)
    (uuids : Nat → String) :
    ((st.one_turn rng uuids).turn_log = st.turn_log
        ∧ (st.one_turn rng uuids).battle_over = true)
    ∨ ∃ acts se ev, (st.one_turn rng uuids).turn_log
        = st.turn_log ++ [LogEntry.turn (st.turn_count + 1) acts se ev] := by
  have h := GameEngine.one_turn_log_spec st rng uuids
  by_cases hw :
      ({ st with turn_count := st.turn_count + 1 }.process_status_phase.1.all_alive_refs.isEmpty)
  · rw [if_pos hw] at h
    exact Or.inl h
  · rw [if_neg hw] at h
    obtain ⟨acts, ev, hlog⟩ := h
    exact Or.inr ⟨acts, _, ev, hlog⟩

@[simp] theorem GameEngine.log_battle_result_turn_log (st : GameEngine) :
    st.log_battle_result.turn_log
      = st.turn_log ++ [LogEntry.result st.battle_result_string st.turn_count] := rfl

@[simp] theorem GameEngine.log_battle_result_turn_count (st : GameEngine) :
    st.log_battle_result.turn_count = st.turn_count := rfl

theorem GameEngine.run_battle_eq (a b : Team) (rng : Nat → RandDraw) (uuids : Nat → String) :
    GameEngine.run_battle a b rng uuids
      = ((GameEngine.init a b).run_turns rng uuids 100).log_battle_result := rfl

/-- Loop invariant of `run_battle`'s while loop: the log holds only turn
records, at most one per executed turn, and the counter never passes 100. -/
theorem run_turns_inv (rng : Nat → RandDraw) (uuids : Nat → String) (fuel : Nat) :
    ∀ st : GameEngine,
      st.turn_log.all LogEntry.isTurn = true →
      st.turn_log.length ≤ st.turn_count →
      st.turn_count ≤ 100 →
      ((GameEngine.run_turns rng uuids fuel st).turn_log.all LogEntry.isTurn = true
        ∧ (GameEngine.run_turns rng uuids fuel st).turn_log.length
            ≤ (GameEngine.run_turns rng uuids fuel st).turn_count
        ∧ (GameEngine.run_turns rng uuids fuel st).turn_count ≤ 100) := by
  induction fuel with
  | zero =>
    intro st h1 h2 h3
    exact ⟨h1, h2, h3⟩
  | succ n ih =>
    intro st h1 h2 h3
    unfold GameEngine.run_turns
    split
    · exact ⟨h1, h2, h3⟩
    · rename_i hguard
      have hlt : st.turn_count < 100 := by
        by_contra hc
        simp [hc] at hguard
      apply ih
      · rcases GameEngine.one_turn_log_cases st rng uuids with ⟨he, _⟩ | ⟨acts, se, ev, he⟩
        · rw [he]
          exact h1
        · rw [he]
          simp [h1, LogEntry.isTurn]
      · rcases GameEngine.one_turn_log_cases st rng uuids with ⟨he, _⟩ | ⟨acts, se, ev, he⟩
        · rw [he, GameEngine.one_turn_turn_count]
          omega
        · rw [he, GameEngine.one_turn_turn_count]
          simp only [List.length_append, List.length_singleton]
          omega
      · rw [GameEngine.one_turn_turn_count]
        omega

/-- No winner announcement ever coincides with the draw message (they differ
in their first character, whatever the team id is). -/
theorem teamWins_ne_draw (s : String) :
    ("Team " ++ s ++ " wins!") ≠ "Draw: Both teams defeated." := by
  intro h
  have h2 := congrArg String.data h
  rw [String.data_append, String.data_append] at h2
  have hT : ("Team " : String).data = 'T' :: "eam ".data := rfl
  have hD : ("Draw: Both teams defeated." : String).data = 'D' :: "raw: Both teams defeated.".data := rfl
  rw [hT, hD, List.cons_append, List.cons_append] at h2
  exact absurd (List.head_eq_of_cons_eq h2) (by decide)

/-- No winner announcement ever coincides with the turn-limit message (they
differ in their second character, whatever the team id is). -/
theorem teamWins_ne_turnLimit (s : String) :
    ("Team " ++ s ++ " wins!") ≠ "Turn limit reached. Possibly a draw." := by
  intro h
  have h2 := congrArg String.data h
  rw [String.data_append, String.data_append] at h2
  have hT : ("Team " : String).data = 'T' :: 'e' :: "am ".data := rfl
  have hD : ("Turn limit reached. Possibly a draw." : String).data
      = 'T' :: 'u' :: "rn limit reached. Possibly a draw.".data := rfl
  rw [hT, hD] at h2
  simp only [List.cons_append] at h2
  have := List.tail_eq_of_cons_eq h2
  exact absurd (List.head_eq_of_cons_eq this) (by decide)

theorem turnLimit_ne_draw :
    ("Turn limit reached. Possibly a draw." : String) ≠ "Draw: Both teams defeated." := by
  decide

/-! ### Claim theorems -/

/-- C1 counterexample: two runs of the same squads with the same seeded
generator stream (`c1rng`, the stream `random.seed` determines) but the
uuid streams two real runs can draw (`uuid.uuid4` reads OS entropy, not the
seeded generator) produce different confrontation logs: the turn-1 record's
events list embeds the event's `event_id`.  This falsifies byte-for-byte
log equality for identical squads and seed. -/
theorem claim_C1_counterexample :
    (GameEngine.run_battle c1A c1B c1rng (fun _ => "aaaa")).turn_log
      ≠ (GameEngine.run_battle c1A c1B c1rng (fun _ => "bbbb")).turn_log := by
  decide

/-- C2 counterexample: in the concrete critical-hit action, base damage is
`max 1 (10 - 2) = 8` and the critical extra is 5, but immediately after the
queueing action the target's health is `30 - 13 = 17`, not `30 - 8 = 22`:
the action applies `base + extra` at once (the recorded damage 13 matches
what was already applied), and the flush then applies the queued extra 5 a
second time, leaving 12.  This falsifies "the queueing action applies only
the base damage immediately". -/
theorem claim_C2_counterexample :
    ((c2st.perform_action c2rng (fun _ => "u") ⟨Side.a, 0⟩).1.getChar ⟨Side.b, 0⟩).current_hp
        = 17
      ∧ (c2st.getChar ⟨Side.b, 0⟩).current_hp = 30
      ∧ max 1 ((c2st.getChar ⟨Side.a, 0⟩).attack - (c2st.getChar ⟨Side.b, 0⟩).defense) = 8
      ∧ ((c2st.perform_action c2rng (fun _ => "u") ⟨Side.a, 0⟩).1.getChar ⟨Side.b, 0⟩).current_hp
          ≠ (c2st.getChar ⟨Side.b, 0⟩).current_hp - 8
      ∧ (c2st.perform_action c2rng (fun _ => "u") ⟨Side.a, 0⟩).2.damage = 13
      ∧ (c2st.perform_action c2rng (fun _ => "u") ⟨Side.a, 0⟩).1.event_log
          = [Event.criticalHit "u" "Critical hit by F on T for extra 5" ⟨Side.b, 0⟩ 5]
      ∧ ((c2st.perform_action c2rng (fun _ => "u") ⟨Side.a, 0⟩).1.process_events.getChar
          ⟨Side.b, 0⟩).current_hp = 12 := by
  decide

/-- C2 (amended): in a critical basic attack the engine applies
`base + extra` to the target's health immediately, during the queueing
action (not just the base damage), records `damage = base + extra`, and
queues a CriticalHit event carrying `extra`; the event-flush step then
applies the queued `extra` a second time.  (Hypotheses pin the rng draws:
no ability available, a non-miss roll, a successful crit roll; `hq` makes
the action's event the only queued one.) -/
theorem claim_C2_amended (st : GameEngine) (rng : Nat → RandDraw) (uuids : Nat → String)
    (fref : CharRef)
    (hav : (st.avail_indices fref).isEmpty = true)
    (hlive : (st.living_enemies (st.getChar fref)).isEmpty = false)
    (hmiss : ¬ ((rng (st.rng_idx + 1)).fl < mkRat 1 10))
    (hcrit : (rng (st.rng_idx + 1 + 1)).fl < mkRat 1 5)
    (hq : st.event_log = []) :
    let fighter := st.getChar fref
    let living := st.living_enemies fighter
    let tref := living.getD ((rng st.rng_idx).ix % living.length) default
    let target := st.getChar tref
    let base := max 1 (fighter.attack - target.defense)
    let extra := fighter.attack.tdiv 2
    let fn := fighter.name
    let tn := target.name
    let ex := toString extra
    let ds := s!"Critical hit by {fn} on {tn} for extra {ex}"
    ((st.perform_action rng uuids fref).2.damage = base + extra
      ∧ (st.perform_action rng uuids fref).1.getChar tref
          = target.take_damage (base + extra)
      ∧ (st.perform_action rng uuids fref).1.event_log
          = [Event.criticalHit (uuids st.uuid_idx) ds tref extra]
      ∧ (st.perform_action rng uuids fref).1.process_events.getChar tref
          = (target.take_damage (base + extra)).take_damage extra) := by
  dsimp only
  have hne : st.living_enemies (st.getChar fref) ≠ [] := by
    intro h0
    rw [h0] at hlive
    simp at hlive
  have hlen : 0 < (st.living_enemies (st.getChar fref)).length := List.length_pos.mpr hne
  have hmem : (st.living_enemies (st.getChar fref)).getD
      ((rng st.rng_idx).ix % (st.living_enemies (st.getChar fref)).length) default
      ∈ st.living_enemies (st.getChar fref) :=
    getD_mem_of_lt (Nat.mod_lt _ hlen) default
  obtain ⟨hts, hidx⟩ := Team.alive_refs_mem hmem
  have hct : st.choose_target rng (st.getChar fref)
      = (some ((st.living_enemies (st.getChar fref)).getD
            ((rng st.rng_idx).ix % (st.living_enemies (st.getChar fref)).length) default),
          { st with rng_idx := st.rng_idx + 1 }) := by
    unfold GameEngine.choose_target drawChoice
    simp [hlive]
  have hpa : st.perform_action rng uuids fref
      = st.basic_attack rng uuids fref
          { actor := (st.getChar fref).name, action := none, target := none, damage := 0,
            extra := [] } := by
    unfold GameEngine.perform_action
    simp [hav]
  rw [hpa]
  unfold GameEngine.basic_attack
  dsimp only
  rw [hct]
  simp only [drawFloat_fst, drawFloat_snd, drawUuid_fst, drawUuid_snd]
  rw [if_neg hmiss, if_pos hcrit]
  rw [show ({ st with rng_idx := st.rng_idx + 1 } : GameEngine).getChar
      ((st.living_enemies (st.getChar fref)).getD
        ((rng st.rng_idx).ix % (st.living_enemies (st.getChar fref)).length) default)
      = st.getChar ((st.living_enemies (st.getChar fref)).getD
        ((rng st.rng_idx).ix % (st.living_enemies (st.getChar fref)).length) default)
    from GameEngine.getChar_congr_teams st rfl rfl _]
  have hv' : ((st.living_enemies (st.getChar fref)).getD
      ((rng st.rng_idx).ix % (st.living_enemies (st.getChar fref)).length) default).idx
      < ((st.getTeam ((st.living_enemies (st.getChar fref)).getD
          ((rng st.rng_idx).ix % (st.living_enemies (st.getChar fref)).length)
          default).side).characters).length := by
    rw [hts]
    exact hidx
  refine ⟨rfl, ?_, ?_, ?_⟩
  · rw [GameEngine.getChar_modifyChar_of_teams st (by rfl) (by rfl) _ _ hv']
  · simp only [GameEngine.modifyChar, GameEngine.setChar_event_log]
    rw [hq]
    rfl
  · apply process_events_crit_end
    case hlog =>
      simp only [GameEngine.modifyChar, GameEngine.setChar_event_log]
      rw [hq]
      exact rfl
    case hv =>
      simp only [GameEngine.modifyChar]
      rw [GameEngine.setChar_getTeam_length]
      rw [GameEngine.getTeam_congr st (by rfl) (by rfl)]
      exact hv'
    case hc =>
      rw [GameEngine.getChar_modifyChar_of_teams st (by rfl) (by rfl) _ _ hv']

/-- C2 witness: the amended characterization applied to the concrete crit
scenario ("F", attack 10, critically hits "T", defense 2, hp 30). -/
theorem claim_C2_amended_witness :
    ((c2st.avail_indices ⟨Side.a, 0⟩).isEmpty = true
        ∧ (c2st.living_enemies (c2st.getChar ⟨Side.a, 0⟩)).isEmpty = false
        ∧ ¬ ((c2rng (c2st.rng_idx + 1)).fl < mkRat 1 10)
        ∧ (c2rng (c2st.rng_idx + 1 + 1)).fl < mkRat 1 5
        ∧ c2st.event_log = [])
    ∧ (let fighter := c2st.getChar ⟨Side.a, 0⟩
       let living := c2st.living_enemies fighter
       let tref := living.getD ((c2rng c2st.rng_idx).ix % living.length) default
       let target := c2st.getChar tref
       let base := max 1 (fighter.attack - target.defense)
       let extra := fighter.attack.tdiv 2
       let fn := fighter.name
       let tn := target.name
       let ex := toString extra
       let ds := s!"Critical hit by {fn} on {tn} for extra {ex}"
       ((c2st.perform_action c2rng (fun _ => "u") ⟨Side.a, 0⟩).2.damage = base + extra
         ∧ (c2st.perform_action c2rng (fun _ => "u") ⟨Side.a, 0⟩).1.getChar tref
             = target.take_damage (base + extra)
         ∧ (c2st.perform_action c2rng (fun _ => "u") ⟨Side.a, 0⟩).1.event_log
             = [Event.criticalHit ((fun _ => "u") c2st.uuid_idx) ds tref extra]
         ∧ (c2st.perform_action c2rng (fun _ => "u") ⟨Side.a, 0⟩).1.process_events.getChar tref
             = (target.take_damage (base + extra)).take_damage extra)) :=
  ⟨⟨by decide, by decide, by decide, by decide, rfl⟩,
    claim_C2_amended c2st c2rng (fun _ => "u") ⟨Side.a, 0⟩ (by decide) (by decide) (by decide)
      (by decide) rfl⟩

/-- C3 counterexample: "V" used ability "Q" in turn 1, ending the turn with
`current_cooldown = 3`.  In turn 2, "K" kills "V" before "V"'s slot, and
the loop breaks on team B's defeat, so "V"'s cooldown is never decremented:
it is still 3 at the end of the 2-turn run, whereas the claim ("decremented
by 1 at the start of each turn for every Combatant regardless of whether
that Combatant acted") requires 2. -/
theorem claim_C3_counterexample :
    ((GameEngine.run_battle c3A c3B c3rng (fun _ => "u")).getChar ⟨Side.b, 0⟩).abilities
        = [{ name := "Q", power := 1, cooldown := 3, current_cooldown := 3, effect := none }]
      ∧ (GameEngine.run_battle c3A c3B c3rng (fun _ => "u")).turn_count = 2
      ∧ ((GameEngine.run_battle c3A c3B c3rng (fun _ => "u")).getChar ⟨Side.b, 0⟩).alive
          = false := by
  decide

/-- C3 (amended): ability cooldowns are not decremented at the start of each
turn for every combatant; they tick per-fighter, inside the action loop,
only when the loop reaches that fighter while it is alive.  Concretely: if
the loop either breaks before reaching combatant `c`'s slot (`battle_over`
set by a defeat) or reaches the slot while `c` is dead, then `c`'s
abilities — cooldowns included — are exactly as they were when the loop
started. -/
theorem claim_C3_amended (rng : Nat → RandDraw) (uuids : Nat → String) :
    ∀ (xs : List CharRef) (st : GameEngine) (ys : List CharRef) (c : CharRef),
      st.battle_over = false → c ∉ xs → c ∉ ys →
      ((GameEngine.action_loop rng uuids st xs).1.battle_over = true
        ∨ ((GameEngine.action_loop rng uuids st xs).1.getChar c).is_alive = false) →
      ((GameEngine.action_loop rng uuids st (xs ++ c :: ys)).1.getChar c).abilities
        = ((st.getChar c).abilities) := by
  intro xs
  induction xs with
  | nil =>
    intro st ys c hb0 _ hny hreach
    rcases hreach with hb | hdead
    · rw [show (GameEngine.action_loop rng uuids st []).1 = st from rfl] at hb
      rw [hb0] at hb
      exact absurd hb (by simp)
    · rw [show (GameEngine.action_loop rng uuids st []).1 = st from rfl] at hdead
      rw [List.nil_append]
      unfold GameEngine.action_loop
      dsimp only
      rw [if_pos (by rw [hdead]; simp)]
      exact GameEngine.action_loop_abilities_frame rng uuids ys st c hny
  | cons r rs ih =>
    intro st ys c hb0 hnx hny hreach
    have hcr : c ≠ r := fun h => hnx (h ▸ List.mem_cons_self r rs)
    have hcrs : c ∉ rs := fun h => hnx (List.mem_cons_of_mem r h)
    rw [List.cons_append]
    unfold GameEngine.action_loop at hreach ⊢
    dsimp only at hreach ⊢
    by_cases halive : ¬ ((st.getChar r).is_alive = true)
    · rw [if_pos halive] at hreach ⊢
      exact ih st ys c hb0 hcrs hny hreach
    · rw [if_neg halive] at hreach ⊢
      by_cases hdef :
          (((st.modifyChar r Character.tick_abilities).perform_action rng uuids r).1.team_a.is_defeated
            || ((st.modifyChar r Character.tick_abilities).perform_action rng uuids r).1.team_b.is_defeated)
            = true
      · rw [if_pos hdef] at hreach ⊢
        dsimp only
        rw [GameEngine.getChar_nonteam_mk]
        rw [GameEngine.perform_action_abilities_ne _ rng uuids r c hcr]
        simp only [GameEngine.modifyChar]
        rw [GameEngine.getChar_setChar_ne _ (Ne.symm hcr) _]
      · rw [if_neg hdef] at hreach ⊢
        dsimp only at hreach ⊢
        have hb0' : (((st.modifyChar r Character.tick_abilities).perform_action rng
            uuids r).1).battle_over = false := by
          rw [GameEngine.action_step_battle_over]
          exact hb0
        rw [ih _ ys c hb0' hcrs hny hreach]
        rw [GameEngine.perform_action_abilities_ne _ rng uuids r c hcr]
        simp only [GameEngine.modifyChar]
        rw [GameEngine.getChar_setChar_ne _ (Ne.symm hcr) _]

/-- C3 witness: the amended statement applied to a state whose only
B-side member is already dead with an ability at cooldown 2: after the
action loop its cooldown is still 2. -/
theorem claim_C3_amended_witness :
    (c3wst.battle_over = false
        ∧ ((⟨Side.b, 0⟩ : CharRef) ∉ ([] : List CharRef))
        ∧ ((GameEngine.action_loop c4rng (fun _ => "u") c3wst []).1.getChar
            ⟨Side.b, 0⟩).is_alive = false)
    ∧ ((GameEngine.action_loop c4rng (fun _ => "u") c3wst
          ([] ++ (⟨Side.b, 0⟩ : CharRef) :: [])).1.getChar ⟨Side.b, 0⟩).abilities
        = ((c3wst.getChar ⟨Side.b, 0⟩).abilities) :=
  ⟨⟨rfl, by decide, by decide⟩,
    claim_C3_amended c4rng (fun _ => "u") [] c3wst [] ⟨Side.b, 0⟩ rfl (by decide) (by decide)
      (Or.inr (by decide))⟩

/-- C4 counterexample: in the run where turn 2's status phase wipes both
squads, the engine executes turn 2 (`turn_count = 2`, both teams defeated by
the poison applied in that turn's status phase) but the confrontation log
contains only turn 1's record and the terminal record — turn 2's record,
and with it that turn's status-effect descriptions, never appears, contrary
to the claim. -/
theorem claim_C4_counterexample :
    (GameEngine.run_battle c4A c4B c4rng (fun _ => "u")).turn_log.map LogEntry.turn_number?
        = [some 1, none]
      ∧ (GameEngine.run_battle c4A c4B c4rng (fun _ => "u")).turn_count = 2
      ∧ (GameEngine.run_battle c4A c4B c4rng (fun _ => "u")).team_a.is_defeated = true
      ∧ (GameEngine.run_battle c4A c4B c4rng (fun _ => "u")).team_b.is_defeated = true := by
  decide

/-- C4 (amended): every turn executed while the engine is Running appends
exactly one turn record to the confrontation log, carrying that turn's
status-effect description strings under the status-effects key (omitted iff
empty) — EXCEPT in the edge case where the status phase alone wipes all
fighters: then the engine transitions to Over without recording any action
entries for that turn, and that turn's record (with its status-effect
descriptions) is discarded — the `break` skips the `turn_log.append`, so
the record does NOT appear in the log. -/
theorem claim_C4_amended (st : GameEngine) (rng : Nat → RandDraw) (uuids : Nat → String) :
    if ({ st with turn_count := st.turn_count + 1 }.process_status_phase.1.all_alive_refs.isEmpty)
    then ((st.one_turn rng uuids).turn_log = st.turn_log
          ∧ (st.one_turn rng uuids).battle_over = true)
    else (∃ acts ev, (st.one_turn rng uuids).turn_log
          = st.turn_log ++ [LogEntry.turn (st.turn_count + 1) acts
              (if ({ st with turn_count := st.turn_count + 1 }).process_status_phase.2.isEmpty
                then none
                else some ({ st with turn_count := st.turn_count + 1 }).process_status_phase.2)
              ev]) :=
  GameEngine.one_turn_log_spec st rng uuids

/-- C8: every run of the battle loop terminates (the loop is structurally
bounded by its fuel, and the turn counter rises by 1 per iteration towards
the 100 cap), producing at most 100 turn records, followed by exactly one
terminal result record in last position, which carries the final turn
count. -/
theorem claim_C8_termination_and_cap (a b : Team) (rng : Nat → RandDraw)
    (uuids : Nat → String) :
    ∃ ts r n, (GameEngine.run_battle a b rng uuids).turn_log = ts ++ [LogEntry.result r n]
      ∧ ts.all LogEntry.isTurn = true
      ∧ ts.length ≤ 100
      ∧ n = (GameEngine.run_battle a b rng uuids).turn_count := by
  obtain ⟨h1, h2, h3⟩ := run_turns_inv rng uuids 100 (GameEngine.init a b) rfl
    (by simp [GameEngine.init]) (by simp [GameEngine.init])
  rw [GameEngine.run_battle_eq, GameEngine.log_battle_result_turn_log,
    GameEngine.log_battle_result_turn_count]
  exact ⟨((GameEngine.init a b).run_turns rng uuids 100).turn_log, _, _, rfl, h1,
    le_trans h2 h3, rfl⟩

/-- C7: the terminal record carries the final turn number, its
`battle_result` is the draw message exactly when both squads have zero
living members, the turn-limit message exactly when neither squad is
defeated, and it names the opposing squad as winner when exactly one squad
has zero living members. -/
theorem claim_C7_terminal_result (st : GameEngine) :
    st.log_battle_result.turn_log
        = st.turn_log ++ [LogEntry.result st.battle_result_string st.turn_count]
      ∧ (st.battle_result_string = "Draw: Both teams defeated."
          ↔ st.team_a.is_defeated = true ∧ st.team_b.is_defeated = true)
      ∧ (st.battle_result_string = "Turn limit reached. Possibly a draw."
          ↔ st.team_a.is_defeated = false ∧ st.team_b.is_defeated = false)
      ∧ (st.team_a.is_defeated = true → st.team_b.is_defeated = false →
          st.battle_result_string = "Team " ++ st.team_b.team_id ++ " wins!")
      ∧ (st.team_b.is_defeated = true → st.team_a.is_defeated = false →
          st.battle_result_string = "Team " ++ st.team_a.team_id ++ " wins!") := by
  refine ⟨rfl, ?_, ?_, ?_, ?_⟩ <;>
    rcases ha : st.team_a.is_defeated <;> rcases hb : st.team_b.is_defeated <;>
      simp [GameEngine.battle_result_string, ha, hb, teamWins_ne_draw,
        teamWins_ne_turnLimit, turnLimit_ne_draw, turnLimit_ne_draw.symm]

/-- C7 witness: the characterization applied to a concrete engine state (a
one-member team A that has been wiped against a surviving team B). -/
theorem claim_C7_terminal_result_witness :
    (GameEngine.init
        { Team.make "TA" with characters := [{ Character.make "A" 5 1 0 1 "TA" 0 [] [] with
            current_hp := 0, alive := false }] }
        ((Team.make "TB").add_character (Character.make "B" 5 1 0 1 "TB" 0 [] []))).battle_result_string
      = "Team TB wins!" := by
  have h := claim_C7_terminal_result (GameEngine.init
    { Team.make "TA" with characters := [{ Character.make "A" 5 1 0 1 "TA" 0 [] [] with
        current_hp := 0, alive := false }] }
    ((Team.make "TB").add_character (Character.make "B" 5 1 0 1 "TB" 0 [] [])))
  exact h.2.2.2.1 (by decide) (by decide)

/-- C9: a poison effect of magnitude 2 and duration 3 on a combatant with 5
health yields the health sequence 3, 1, 0 over three status passes, kills
the combatant on the third, and is dropped from the effect list after the
third pass. -/
theorem claim_C9_poison_scenario (c : Character)
    (hhp : c.current_hp = 5)
    (heff : c.status_effects = [⟨"Poison", 3, 2, "poison"⟩]) :
    (c.process_status_effects.1.current_hp = 3
      ∧ c.process_status_effects.1.process_status_effects.1.current_hp = 1
      ∧ c.process_status_effects.1.process_status_effects.1.process_status_effects.1.current_hp
          = 0
      ∧ c.process_status_effects.1.process_status_effects.1.process_status_effects.1.alive
          = false
      ∧ c.process_status_effects.1.process_status_effects.1.process_status_effects.1.status_effects
          = []) := by
  simp [Character.process_status_effects, processEffectsAux, StatusEffect.apply_effect,
    Character.take_damage, StatusEffect.tick, StatusEffect.is_expired, hhp, heff]

/-- C9 witness: the scenario run on a concrete combatant. -/
theorem claim_C9_poison_scenario_witness :
    (({ Character.make "P" 5 1 1 1 "T" 0 [] [] with
        status_effects := [⟨"Poison", 3, 2, "poison"⟩] } : Character).current_hp = 5)
      ∧ ({ Character.make "P" 5 1 1 1 "T" 0 [] [] with
            status_effects := [⟨"Poison", 3, 2, "poison"⟩] } : Character).process_status_effects.1.current_hp
          = 3 :=
  ⟨rfl, (claim_C9_poison_scenario _ rfl rfl).1⟩

/-- C10: rearranging a squad's formation with a list whose length differs
from the roster size is a silent no-op: the returned team is the input team,
so the formation list and every member's `position` are unchanged, and no
log of any kind is produced (the operation touches no log). -/
theorem claim_C10_rearrange_mismatch_noop (t : Team) (new_order : List Int)
    (h : new_order.length ≠ t.characters.length) :
    t.rearrange_formation new_order = t := by
  simp [Team.rearrange_formation, h]

/-- C10 witness: a one-member squad rearranged with an empty order list. -/
theorem claim_C10_rearrange_mismatch_noop_witness :
    (([] : List Int).length ≠ ((Team.make "T").add_character
        (Character.make "A" 5 1 0 1 "T" 3 [] [])).characters.length)
      ∧ ((Team.make "T").add_character
          (Character.make "A" 5 1 0 1 "T" 3 [] [])).rearrange_formation []
        = (Team.make "T").add_character (Character.make "A" 5 1 0 1 "T" 3 [] []) :=
  ⟨by decide, claim_C10_rearrange_mismatch_noop _ _ (by decide)⟩

/-! Correctness of the turn-order sort: `insertSorted` inserts after the
last element `y` with `le y x`, so the insertion sort permutes its input,
is sorted for a total transitive comparison, and is stable. -/

theorem insertSorted_perm {α : Type _} (le : α → α → Bool) (x : α) (l : List α) :
    (insertSorted le x l).Perm (x :: l) := by
  induction l with
  | nil => exact List.Perm.refl _
  | cons y ys ih =>
    unfold insertSorted
    split
    · exact (ih.cons y).trans (List.Perm.swap x y ys)
    · exact List.Perm.refl _

theorem foldl_insertSorted_perm {α : Type _} (le : α → α → Bool) (l : List α) :
    ∀ acc : List α, (l.foldl (fun acc x => insertSorted le x acc) acc).Perm (acc ++ l) := by
  induction l with
  | nil => intro acc; simp
  | cons x xs ih =>
    intro acc
    rw [List.foldl_cons]
    refine (ih _).trans ?_
    exact ((insertSorted_perm le x acc).append_right xs).trans List.perm_middle.symm

theorem stableSort_perm {α : Type _} (le : α → α → Bool) (l : List α) :
    (stableSort le l).Perm l := by
  have h := foldl_insertSorted_perm le l []
  simpa [stableSort] using h

theorem insertSorted_pairwise {α : Type _} (le : α → α → Bool)
    (htot : ∀ a b, le a b = true ∨ le b a = true)
    (htrans : ∀ a b c, le a b = true → le b c = true → le a c = true) (x : α) :
    ∀ l : List α, l.Pairwise (fun a b => le a b = true) →
      (insertSorted le x l).Pairwise (fun a b => le a b = true) := by
  intro l
  induction l with
  | nil =>
    intro _
    exact List.pairwise_singleton _ _
  | cons y ys ih =>
    intro hl
    rcases List.pairwise_cons.mp hl with ⟨hy, hys⟩
    unfold insertSorted
    split
    · rename_i hle
      refine List.pairwise_cons.mpr ⟨?_, ih hys⟩
      intro z hz
      rcases List.mem_cons.mp ((insertSorted_perm le x ys).mem_iff.mp hz) with rfl | hzys
      · exact hle
      · exact hy z hzys
    · rename_i hnle
      have hxy : le x y = true := (htot x y).resolve_right hnle
      refine List.pairwise_cons.mpr ⟨?_, hl⟩
      intro z hz
      rcases List.mem_cons.mp hz with rfl | hzys
      · exact hxy
      · exact htrans x y z hxy (hy z hzys)

theorem foldl_insertSorted_pairwise {α : Type _} (le : α → α → Bool)
    (htot : ∀ a b, le a b = true ∨ le b a = true)
    (htrans : ∀ a b c, le a b = true → le b c = true → le a c = true) (l : List α) :
    ∀ acc : List α, acc.Pairwise (fun a b => le a b = true) →
      (l.foldl (fun acc x => insertSorted le x acc) acc).Pairwise
        (fun a b => le a b = true) := by
  induction l with
  | nil =>
    intro acc h
    simpa using h
  | cons x xs ih =>
    intro acc h
    rw [List.foldl_cons]
    exact ih _ (insertSorted_pairwise le htot htrans x acc h)

theorem stableSort_pairwise {α : Type _} (le : α → α → Bool)
    (htot : ∀ a b, le a b = true ∨ le b a = true)
    (htrans : ∀ a b c, le a b = true → le b c = true → le a c = true) (l : List α) :
    (stableSort le l).Pairwise (fun a b => le a b = true) :=
  foldl_insertSorted_pairwise le htot htrans l [] List.Pairwise.nil

/-- `(-speed, position)` ascending is a total preorder. -/
theorem fighterLe_total (x y : Character) : fighterLe x y = true ∨ fighterLe y x = true := by
  simp only [fighterLe, Bool.or_eq_true, Bool.and_eq_true, decide_eq_true_eq, beq_iff_eq]
  omega

theorem fighterLe_trans (x y z : Character) (h1 : fighterLe x y = true)
    (h2 : fighterLe y z = true) : fighterLe x z = true := by
  simp only [fighterLe, Bool.or_eq_true, Bool.and_eq_true, decide_eq_true_eq, beq_iff_eq]
    at h1 h2 ⊢
  omega

/-! Reading `name`, `speed` and `position` off the invariant `sortData`
triple. -/

theorem Character.name_of_sortData {c d : Character} (h : c.sortData = d.sortData) :
    c.name = d.name :=
  congrArg (fun p => p.1) h

theorem Character.speed_of_sortData {c d : Character} (h : c.sortData = d.sortData) :
    c.speed = d.speed :=
  congrArg (fun p => p.2.1) h

theorem Character.position_of_sortData {c d : Character} (h : c.sortData = d.sortData) :
    c.position = d.position :=
  congrArg (fun p => p.2.2) h

theorem fighterLe_congr {a b c d : Character} (hac : a.sortData = c.sortData)
    (hbd : b.sortData = d.sortData) : fighterLe a b = fighterLe c d := by
  unfold fighterLe
  rw [Character.speed_of_sortData hac, Character.speed_of_sortData hbd,
    Character.position_of_sortData hac, Character.position_of_sortData hbd]

/-! Who acts: every action record produced by the loop carries the name of
the fighter whose slot produced it, and the records appear in slot order (a
sublist of the sorted fighter list, since dead fighters are skipped and a
defeat breaks the loop). -/

set_option maxHeartbeats 800000 in
theorem GameEngine.perform_action_actor (st : GameEngine) (rng : Nat → RandDraw)
    (uuids : Nat → String) (fref : CharRef) :
    ((st.perform_action rng uuids fref).2).actor = (st.getChar fref).name := by
  unfold GameEngine.perform_action GameEngine.basic_attack GameEngine.ability_action
    GameEngine.choose_target
  dsimp only
  repeat' split
  all_goals rfl

theorem GameEngine.action_loop_actors (rng : Nat → RandDraw) (uuids : Nat → String) :
    ∀ (refs : List CharRef) (st : GameEngine),
      ∃ used : List CharRef, used.Sublist refs
        ∧ ((GameEngine.action_loop rng uuids st refs).2).map ActionRecord.actor
          = used.map (fun r => (st.getChar r).name) := by
  intro refs
  induction refs with
  | nil =>
    intro st
    exact ⟨[], List.nil_sublist _, rfl⟩
  | cons r rs ih =>
    intro st
    have hstep : (((st.modifyChar r Character.tick_abilities).perform_action
          rng uuids r).2).actor = (st.getChar r).name := by
      rw [GameEngine.perform_action_actor]
      refine Character.name_of_sortData ?_
      simp only [GameEngine.modifyChar]
      exact getChar_setChar_field Character.sortData _ _ _ _ (by simp)
    have hnames : ∀ c : CharRef,
        ((((st.modifyChar r Character.tick_abilities).perform_action
            rng uuids r).1).getChar c).name = (st.getChar c).name := by
      intro c
      refine Character.name_of_sortData ?_
      rw [GameEngine.perform_action_sortData]
      simp only [GameEngine.modifyChar]
      exact getChar_setChar_field Character.sortData _ _ _ _ (by simp)
    unfold GameEngine.action_loop
    dsimp only
    split
    · obtain ⟨used, hsub, hmap⟩ := ih st
      exact ⟨used, hsub.cons r, hmap⟩
    · split
      · refine ⟨[r], (List.nil_sublist rs).cons₂ r, ?_⟩
        simp only [List.map_cons, List.map_nil]
        rw [hstep]
      · obtain ⟨used, hsub, hmap⟩ :=
          ih ((st.modifyChar r Character.tick_abilities).perform_action rng uuids r).1
        refine ⟨r :: used, hsub.cons₂ r, ?_⟩
        simp only [List.map_cons]
        rw [hstep, hmap, List.map_congr_left (fun a _ => hnames a)]

/-! Transport of team sizes and memberships from the state at sort time back
to the state at the start of the turn. -/

theorem foldl_statusStep_getTeam_length (s : Side) (refs : List CharRef) :
    ∀ acc : GameEngine × List String,
      ((((refs.foldl statusStep acc).1).getTeam s).characters).length
        = (((acc.1.getTeam s)).characters).length := by
  induction refs with
  | nil =>
    intro acc
    rfl
  | cons r rs ih =>
    intro acc
    rw [List.foldl_cons, ih]
    show ((((statusStep acc r).1).getTeam s).characters).length = _
    simp only [statusStep]
    exact GameEngine.setChar_getTeam_length _ _ _ s

theorem GameEngine.process_status_phase_getTeam_length (st : GameEngine) (s : Side) :
    (((st.process_status_phase.1).getTeam s).characters).length
      = (((st.getTeam s)).characters).length :=
  foldl_statusStep_getTeam_length s _ _

theorem GameEngine.getTeam_nonteam_mk (S : GameEngine) (tl : List LogEntry) (el : List Event)
    (bo : Bool) (tc ri ui : Nat) (s : Side) :
    (GameEngine.mk S.team_a S.team_b tl el bo tc ri ui).getTeam s = S.getTeam s := by
  cases s <;> rfl

theorem GameEngine.all_alive_refs_valid {st : GameEngine} {r : CharRef}
    (h : r ∈ st.all_alive_refs) :
    r.idx < (((st.getTeam r.side)).characters).length := by
  rcases List.mem_append.mp h with h1 | h1
  · obtain ⟨hs, hi⟩ := Team.alive_refs_mem h1
    rw [hs, GameEngine.getTeam_a]
    exact hi
  · obtain ⟨hs, hi⟩ := Team.alive_refs_mem h1
    rw [hs, GameEngine.getTeam_b]
    exact hi

theorem GameEngine.getChar_mem_roster {st : GameEngine} {r : CharRef}
    (hv : r.idx < (((st.getTeam r.side)).characters).length) :
    st.getChar r ∈ st.team_a.characters ++ st.team_b.characters := by
  obtain ⟨s, i⟩ := r
  cases s
  · exact List.mem_append.mpr (Or.inl (getD_mem_of_lt hv default))
  · exact List.mem_append.mpr (Or.inr (getD_mem_of_lt hv default))

/-- Core ordering fact: two records at positions `i < j` of the action list
run on the sorted fighter list belong to two alive fighters whose sort keys
are in order (`fighterLe`, i.e. speed descending, position ascending). -/
theorem GameEngine.action_loop_sorted_ordered (rng : Nat → RandDraw) (uuids : Nat → String)
    (stB : GameEngine) {i j : Nat} (hij : i < j) {ra rb : ActionRecord}
    (hi : ((GameEngine.action_loop rng uuids stB
        (stB.sorted_fighters stB.all_alive_refs)).2).get? i = some ra)
    (hj : ((GameEngine.action_loop rng uuids stB
        (stB.sorted_fighters stB.all_alive_refs)).2).get? j = some rb) :
    ∃ ui uj : CharRef, ui ∈ stB.all_alive_refs ∧ uj ∈ stB.all_alive_refs
      ∧ (stB.getChar ui).name = ra.actor ∧ (stB.getChar uj).name = rb.actor
      ∧ fighterLe (stB.getChar ui) (stB.getChar uj) = true := by
  obtain ⟨used, hsub, hmap⟩ := GameEngine.action_loop_actors rng uuids
    (stB.sorted_fighters stB.all_alive_refs) stB
  have hmi := congrArg (fun l => l.get? i) hmap
  have hmj := congrArg (fun l => l.get? j) hmap
  simp only [List.get?_map] at hmi hmj
  rw [hi] at hmi
  rw [hj] at hmj
  cases hui : used.get? i with
  | none =>
    rw [hui] at hmi
    exact absurd hmi (by simp)
  | some ui =>
    cases huj : used.get? j with
    | none =>
      rw [huj] at hmj
      exact absurd hmj (by simp)
    | some uj =>
      rw [hui] at hmi
      rw [huj] at hmj
      simp only [Option.map_some', Option.some.injEq] at hmi hmj
      obtain ⟨hilt, higet⟩ := List.get?_eq_some.mp hui
      obtain ⟨hjlt, hjget⟩ := List.get?_eq_some.mp huj
      have hmemi : ui ∈ stB.all_alive_refs :=
        (stableSort_perm (fun r1 r2 => fighterLe (stB.getChar r1) (stB.getChar r2))
          stB.all_alive_refs).mem_iff.mp (hsub.subset (List.get?_mem hui))
      have hmemj : uj ∈ stB.all_alive_refs :=
        (stableSort_perm (fun r1 r2 => fighterLe (stB.getChar r1) (stB.getChar r2))
          stB.all_alive_refs).mem_iff.mp (hsub.subset (List.get?_mem huj))
      have hpair : (stB.sorted_fighters stB.all_alive_refs).Pairwise
          (fun r1 r2 => fighterLe (stB.getChar r1) (stB.getChar r2) = true) :=
        stableSort_pairwise (fun r1 r2 => fighterLe (stB.getChar r1) (stB.getChar r2))
          (fun a b => fighterLe_total (stB.getChar a) (stB.getChar b))
          (fun a b c => fighterLe_trans (stB.getChar a) (stB.getChar b) (stB.getChar c))
          stB.all_alive_refs
      have hrel := List.pairwise_iff_get.mp (hpair.sublist hsub) ⟨i, hilt⟩ ⟨j, hjlt⟩ hij
      rw [higet, hjget] at hrel
      exact ⟨ui, uj, hmemi, hmemj, hmi.symm, hmj.symm, hrel⟩

/-- Sharpening of the per-turn log fact: in a non-wipe turn the appended
record's action list is exactly the output of the action loop run on the
sorted alive-fighter list of the post-status-phase state. -/
theorem GameEngine.one_turn_log_acts (st : GameEngine) (rng : Nat → RandDraw)
    (uuids : Nat → String)
    (hw : ¬ (({ st with turn_count := st.turn_count + 1 }
        : GameEngine).process_status_phase.1.all_alive_refs.isEmpty = true)) :
    ∃ se ev, (st.one_turn rng uuids).turn_log
      = st.turn_log ++ [LogEntry.turn (st.turn_count + 1)
          (GameEngine.action_loop rng uuids
            ({ st with turn_count := st.turn_count + 1 }
              : GameEngine).process_status_phase.1
            ((({ st with turn_count := st.turn_count + 1 }
              : GameEngine).process_status_phase.1).sorted_fighters
              (({ st with turn_count := st.turn_count + 1 }
                : GameEngine).process_status_phase.1).all_alive_refs)).2
          se ev] := by
  unfold GameEngine.one_turn
  dsimp only
  rw [if_neg hw]
  set SP := ({ st with turn_count := st.turn_count + 1 } : GameEngine).process_status_phase
    with hSPdef
  set AL := GameEngine.action_loop rng uuids SP.1 (SP.1.sorted_fighters SP.1.all_alive_refs)
    with hALdef
  obtain ⟨ev', hfin⟩ := process_events_append_entry AL.1 (st.turn_count + 1) AL.2
    (if SP.2.isEmpty then none else some SP.2)
  have hAL1 : AL.1.turn_log = st.turn_log := by
    rw [hALdef]
    rw [GameEngine.action_loop_turn_log]
    rw [hSPdef]
    simp
  nth_rewrite 2 [hAL1] at hfin
  exact ⟨_, ev', hfin⟩

/-- C6: within a single turn's action list, actions occur in sorted order:
for any two records at positions `i < j`, the earlier actor's speed is at
least the later actor's, and on a speed tie the earlier actor's `position`
is at most the later one's (actors are identified in the roster by their
names, assumed distinct as every squad the spec discusses has uniquely-named
members). -/
theorem claim_C6_turn_ordering (st : GameEngine) (rng : Nat → RandDraw)
    (uuids : Nat → String)
    (hnodup : ((st.team_a.characters ++ st.team_b.characters).map Character.name).Nodup)
    (n : Nat) (acts : List ActionRecord) (se ev : Option (List String))
    (hlog : (st.one_turn rng uuids).turn_log = st.turn_log ++ [LogEntry.turn n acts se ev])
    (i j : Nat) (hij : i < j) (ra rb : ActionRecord)
    (hi : acts.get? i = some ra) (hj : acts.get? j = some rb)
    (ca cb : Character)
    (hca : ca ∈ st.team_a.characters ++ st.team_b.characters) (hra : ca.name = ra.actor)
    (hcb : cb ∈ st.team_a.characters ++ st.team_b.characters) (hrb : cb.name = rb.actor) :
    cb.speed ≤ ca.speed ∧ (ca.speed = cb.speed → ca.position ≤ cb.position) := by
  by_cases hw : (({ st with turn_count := st.turn_count + 1 }
      : GameEngine).process_status_phase.1.all_alive_refs.isEmpty = true)
  · have hspec := GameEngine.one_turn_log_spec st rng uuids
    rw [if_pos hw] at hspec
    rw [hspec.1] at hlog
    have hlen := congrArg List.length hlog
    simp at hlen
  · obtain ⟨se', ev', hacts⟩ := GameEngine.one_turn_log_acts st rng uuids hw
    rw [hlog] at hacts
    have hentry := List.append_cancel_left hacts
    simp only [List.cons.injEq, LogEntry.turn.injEq, and_true] at hentry
    obtain ⟨hn, hacts_eq, hse, hev⟩ := hentry
    rw [hacts_eq] at hi hj
    obtain ⟨ui, uj, hmemi, hmemj, hni, hnj, hrel⟩ :=
      GameEngine.action_loop_sorted_ordered rng uuids _ hij hi hj
    have hsd : ∀ r : CharRef,
        ((({ st with turn_count := st.turn_count + 1 }
          : GameEngine).process_status_phase.1).getChar r).sortData
          = ((st.getChar r).sortData) := by
      intro r
      rw [GameEngine.process_status_phase_sortData, GameEngine.getChar_nonteam_mk]
    have hvi := GameEngine.all_alive_refs_valid hmemi
    rw [GameEngine.process_status_phase_getTeam_length, GameEngine.getTeam_nonteam_mk] at hvi
    have hvj := GameEngine.all_alive_refs_valid hmemj
    rw [GameEngine.process_status_phase_getTeam_length, GameEngine.getTeam_nonteam_mk] at hvj
    have hnamei : (st.getChar ui).name = ra.actor := by
      rw [← hni]
      exact (Character.name_of_sortData (hsd ui)).symm
    have hnamej : (st.getChar uj).name = rb.actor := by
      rw [← hnj]
      exact (Character.name_of_sortData (hsd uj)).symm
    have hca' : ca = st.getChar ui :=
      List.inj_on_of_nodup_map hnodup hca (GameEngine.getChar_mem_roster hvi)
        (by rw [hra, ← hnamei])
    have hcb' : cb = st.getChar uj :=
      List.inj_on_of_nodup_map hnodup hcb (GameEngine.getChar_mem_roster hvj)
        (by rw [hrb, ← hnamej])
    have hfl : fighterLe ca cb = true := by
      rw [hca', hcb', ← fighterLe_congr (hsd ui) (hsd uj)]
      exact hrel
    simp only [fighterLe, Bool.or_eq_true, Bool.and_eq_true, decide_eq_true_eq,
      beq_iff_eq] at hfl
    omega

/-- C6 witness: turn 1 of the `c6A` vs `c6B` run lists "A1" (speed 5)
before "B1" (speed 3), and the claim instantiated there yields the expected
speed comparison. -/
theorem claim_C6_turn_ordering_witness :
    (Character.make "B1" 20 2 0 3 "TB" 0 [] []).speed
        ≤ (Character.make "A1" 20 3 0 5 "TA" 0 [] []).speed
      ∧ ((Character.make "A1" 20 3 0 5 "TA" 0 [] []).speed
            = (Character.make "B1" 20 2 0 3 "TB" 0 [] []).speed
          → (Character.make "A1" 20 3 0 5 "TA" 0 [] []).position
            ≤ (Character.make "B1" 20 2 0 3 "TB" 0 [] []).position) :=
  claim_C6_turn_ordering c6st c6rng (fun _ => "u") (by decide) 1
    [⟨"A1", some "attack", some "B1", 3, []⟩, ⟨"B1", some "attack", some "A1", 2, []⟩]
    none none (by decide) 0 1 (by decide)
    ⟨"A1", some "attack", some "B1", 3, []⟩ ⟨"B1", some "attack", some "A1", 2, []⟩
    rfl rfl
    (Character.make "A1" 20 3 0 5 "TA" 0 [] [])
    (Character.make "B1" 20 2 0 3 "TB" 0 [] [])
    (by decide) rfl (by decide) rfl

/-! Health bounds: every character-level operation the engine performs
preserves well-formedness, provided the amounts involved are nonnegative. -/

theorem Character.wfb_iff (c : Character) : c.wfb = true ↔
    (0 ≤ c.current_hp ∧ c.current_hp ≤ c.max_hp ∧ 0 ≤ c.attack
      ∧ (∀ e ∈ c.status_effects, 0 ≤ e.effect_value)
      ∧ (∀ a ∈ c.abilities, a.wfb = true)) := by
  simp [Character.wfb, List.all_eq_true, and_assoc]

theorem Character.wfb_take_damage {c : Character} {n : Int} (hc : c.wfb = true)
    (hn : 0 ≤ n) : (c.take_damage n).wfb = true := by
  rw [Character.wfb_iff] at hc
  obtain ⟨h1, h2, h3, h4, h5⟩ := hc
  rw [Character.wfb_iff]
  unfold Character.take_damage
  dsimp only
  split <;> exact ⟨by dsimp only; omega, by dsimp only; omega, h3, h4, h5⟩

theorem Character.wfb_heal {c : Character} {n : Int} (hc : c.wfb = true)
    (hn : 0 ≤ n) : (c.heal n).wfb = true := by
  rw [Character.wfb_iff] at hc
  obtain ⟨h1, h2, h3, h4, h5⟩ := hc
  rw [Character.wfb_iff]
  unfold Character.heal
  dsimp only
  split <;> exact ⟨by dsimp only; omega, by dsimp only; omega, h3, h4, h5⟩

theorem Character.wfb_add_status_effect {c : Character} {e : StatusEffect}
    (hc : c.wfb = true) (he : 0 ≤ e.effect_value) :
    (c.add_status_effect e).wfb = true := by
  rw [Character.wfb_iff] at hc
  obtain ⟨h1, h2, h3, h4, h5⟩ := hc
  rw [Character.wfb_iff]
  unfold Character.add_status_effect
  dsimp only
  refine ⟨h1, h2, h3, ?_, h5⟩
  intro x hx
  rcases List.mem_append.mp hx with hx1 | hx1
  · exact h4 x hx1
  · rcases List.mem_singleton.mp hx1 with rfl
    exact he

theorem StatusEffect.wfb_apply_effect {e : StatusEffect} {c : Character}
    (hc : c.wfb = true) (he : 0 ≤ e.effect_value) :
    (e.apply_effect c).wfb = true := by
  unfold StatusEffect.apply_effect
  split
  · exact Character.wfb_take_damage hc he
  · split
    · exact Character.wfb_heal hc he
    · split
      · rw [Character.wfb_iff] at hc
        obtain ⟨h1, h2, h3, h4, h5⟩ := hc
        rw [Character.wfb_iff]
        dsimp only
        exact ⟨h1, h2, by omega, h4, h5⟩
      · split
        · rw [Character.wfb_iff] at hc
          obtain ⟨h1, h2, h3, h4, h5⟩ := hc
          rw [Character.wfb_iff]
          dsimp only
          exact ⟨h1, h2, h3, h4, h5⟩
        · exact hc

theorem Ability.wfb_use (a : Ability) : a.use.wfb = a.wfb := rfl

theorem Ability.wfb_tick_cooldown (a : Ability) : a.tick_cooldown.wfb = a.wfb := by
  unfold Ability.tick_cooldown
  split <;> rfl

theorem Character.wfb_tick_abilities {c : Character} (hc : c.wfb = true) :
    c.tick_abilities.wfb = true := by
  rw [Character.wfb_iff] at hc
  obtain ⟨h1, h2, h3, h4, h5⟩ := hc
  rw [Character.wfb_iff]
  unfold Character.tick_abilities
  dsimp only
  refine ⟨h1, h2, h3, h4, ?_⟩
  intro a ha
  obtain ⟨b, hb, rfl⟩ := List.mem_map.mp ha
  rw [Ability.wfb_tick_cooldown]
  exact h5 b hb

theorem processEffectsAux_wfb : ∀ (effs : List StatusEffect) (c : Character),
    c.wfb = true → (∀ e ∈ effs, 0 ≤ e.effect_value) →
      (processEffectsAux c effs).1.wfb = true := by
  intro effs
  induction effs with
  | nil =>
    intro c hc _
    exact hc
  | cons e rest ih =>
    intro c hc hv
    unfold processEffectsAux
    dsimp only
    exact ih _ (StatusEffect.wfb_apply_effect hc (hv e (List.mem_cons_self e rest)))
      (fun x hx => hv x (List.mem_cons_of_mem e hx))

theorem processEffectsAux_values : ∀ (effs : List StatusEffect) (c : Character),
    (∀ e ∈ effs, 0 ≤ e.effect_value) →
      ∀ x ∈ (processEffectsAux c effs).2.1, 0 ≤ x.effect_value := by
  intro effs
  induction effs with
  | nil =>
    intro c _ x hx
    exact absurd hx (List.not_mem_nil x)
  | cons e rest ih =>
    intro c hv x hx
    unfold processEffectsAux at hx
    dsimp only at hx
    rcases List.mem_cons.mp hx with rfl | hx2
    · have := hv e (List.mem_cons_self e rest)
      simpa [StatusEffect.tick] using this
    · exact ih _ (fun y hy => hv y (List.mem_cons_of_mem e hy)) x hx2

theorem Character.wfb_process_status_effects {c : Character} (hc : c.wfb = true) :
    c.process_status_effects.1.wfb = true := by
  have hv : ∀ e ∈ c.status_effects, 0 ≤ e.effect_value :=
    ((Character.wfb_iff c).mp hc).2.2.2.1
  have haux := processEffectsAux_wfb c.status_effects c hc hv
  have hvals := processEffectsAux_values c.status_effects c hv
  rw [Character.wfb_iff] at haux
  obtain ⟨h1, h2, h3, h4, h5⟩ := haux
  unfold Character.process_status_effects
  dsimp only
  rw [Character.wfb_iff]
  refine ⟨h1, h2, h3, ?_, h5⟩
  intro x hx
  exact hvals x (List.mem_of_mem_filter hx)

/-! Engine-level preservation of well-formedness: every state the battle
loop reaches from well-formed squads is well-formed, hence every health
value it ever stores lies in `[0, max_hp]`. -/

theorem GameEngine.wfb_all_iff (st : GameEngine) : st.wfb = true ↔
    ((∀ c ∈ st.team_a.characters, c.wfb = true)
      ∧ (∀ c ∈ st.team_b.characters, c.wfb = true)
      ∧ (∀ e ∈ st.event_log, e.wfb = true)) := by
  simp [GameEngine.wfb, List.all_eq_true, and_assoc]

theorem Character.default_wfb : (default : Character).wfb = true := by decide

theorem GameEngine.wfb_getChar {st : GameEngine} (h : st.wfb = true) (r : CharRef) :
    (st.getChar r).wfb = true := by
  rw [GameEngine.wfb_all_iff] at h
  obtain ⟨hA, hB, _⟩ := h
  obtain ⟨s, i⟩ := r
  cases s
  · by_cases hlt : i < st.team_a.characters.length
    · exact hA _ (getD_mem_of_lt hlt default)
    · show ((st.team_a.characters).getD i default).wfb = true
      rw [List.getD_eq_default _ _ (Nat.le_of_not_lt hlt)]
      exact Character.default_wfb
  · by_cases hlt : i < st.team_b.characters.length
    · exact hB _ (getD_mem_of_lt hlt default)
    · show ((st.team_b.characters).getD i default).wfb = true
      rw [List.getD_eq_default _ _ (Nat.le_of_not_lt hlt)]
      exact Character.default_wfb

theorem GameEngine.wfb_setChar {st : GameEngine} {x : Character} (h : st.wfb = true)
    (hx : x.wfb = true) (r : CharRef) : (st.setChar r x).wfb = true := by
  rw [GameEngine.wfb_all_iff] at h
  obtain ⟨hA, hB, hE⟩ := h
  obtain ⟨s, i⟩ := r
  cases s <;> unfold GameEngine.setChar <;> dsimp only <;> rw [GameEngine.wfb_all_iff]
  · refine ⟨?_, hB, hE⟩
    intro c hc
    rcases List.mem_or_eq_of_mem_set hc with hc1 | rfl
    · exact hA c hc1
    · exact hx
  · refine ⟨hA, ?_, hE⟩
    intro c hc
    rcases List.mem_or_eq_of_mem_set hc with hc1 | rfl
    · exact hB c hc1
    · exact hx

theorem GameEngine.wfb_event_append {st : GameEngine} {ev : Event} (h : st.wfb = true)
    (hev : ev.wfb = true) :
    ({ st with event_log := st.event_log ++ [ev] } : GameEngine).wfb = true := by
  rw [GameEngine.wfb_all_iff] at h
  obtain ⟨hA, hB, hE⟩ := h
  rw [GameEngine.wfb_all_iff]
  refine ⟨hA, hB, ?_⟩
  intro e he
  rcases List.mem_append.mp he with h1 | h1
  · exact hE e h1
  · rw [List.mem_singleton.mp h1]
    exact hev

theorem Event.wfb_process {e : Event} {st : GameEngine} (hst : st.wfb = true)
    (he : e.wfb = true) : (e.process st).wfb = true := by
  cases e with
  | criticalHit i d t x =>
    have hx : 0 ≤ x := by simpa [Event.wfb] using he
    exact GameEngine.wfb_setChar hst
      (Character.wfb_take_damage (GameEngine.wfb_getChar hst t) hx) t
  | miss i d => exact hst
  | abilityUsed i d eff tgt =>
    cases eff with
    | none => cases tgt <;> exact hst
    | some s0 =>
      cases tgt with
      | none => exact hst
      | some t =>
        have hv : 0 ≤ s0.effect_value := by simpa [Event.wfb] using he
        exact GameEngine.wfb_setChar hst
          (Character.wfb_add_status_effect (GameEngine.wfb_getChar hst t) hv) t

theorem GameEngine.wfb_push_event_string (st : GameEngine) (s0 : String) :
    (st.push_event_string s0).wfb = st.wfb := by
  unfold GameEngine.push_event_string
  split <;> rfl

theorem foldl_eventStep_wfb : ∀ (evs : List Event) (st : GameEngine),
    st.wfb = true → (∀ e ∈ evs, e.wfb = true) → (evs.foldl eventStep st).wfb = true := by
  intro evs
  induction evs with
  | nil =>
    intro st h _
    exact h
  | cons e rest ih =>
    intro st h hv
    rw [List.foldl_cons]
    refine ih _ ?_ (fun x hx => hv x (List.mem_cons_of_mem e hx))
    show (eventStep st e).wfb = true
    unfold eventStep
    rw [GameEngine.wfb_push_event_string]
    exact Event.wfb_process h (hv e (List.mem_cons_self e rest))

theorem GameEngine.wfb_process_events {st : GameEngine} (h : st.wfb = true) :
    st.process_events.wfb = true := by
  unfold GameEngine.process_events
  have hE : ∀ e ∈ st.event_log, e.wfb = true := ((GameEngine.wfb_all_iff st).mp h).2.2
  refine foldl_eventStep_wfb _ _ ?_ hE
  rw [GameEngine.wfb_all_iff] at h ⊢
  obtain ⟨hA, hB, _⟩ := h
  exact ⟨hA, hB, fun e he => absurd he (List.not_mem_nil e)⟩

theorem foldl_statusStep_wfb : ∀ (refs : List CharRef) (acc : GameEngine × List String),
    acc.1.wfb = true → ((refs.foldl statusStep acc).1).wfb = true := by
  intro refs
  induction refs with
  | nil =>
    intro acc h
    exact h
  | cons r rs ih =>
    intro acc h
    rw [List.foldl_cons]
    refine ih _ ?_
    show ((statusStep acc r).1).wfb = true
    unfold statusStep
    dsimp only
    exact GameEngine.wfb_setChar h
      (Character.wfb_process_status_effects (GameEngine.wfb_getChar h r)) r

theorem GameEngine.wfb_process_status_phase {st : GameEngine} (h : st.wfb = true) :
    (st.process_status_phase.1).wfb = true :=
  foldl_statusStep_wfb _ _ h

theorem Character.wfb_attack_nonneg {c : Character} (hc : c.wfb = true) : 0 ≤ c.attack :=
  ((Character.wfb_iff c).mp hc).2.2.1

theorem wfb_abilities_getD {c : Character} (hc : c.wfb = true) (k : Nat) :
    (c.abilities.getD k default).wfb = true := by
  by_cases hlt : k < c.abilities.length
  · exact ((Character.wfb_iff c).mp hc).2.2.2.2 _ (getD_mem_of_lt hlt default)
  · rw [List.getD_eq_default _ _ (Nat.le_of_not_lt hlt)]
    rfl

theorem Character.wfb_set_ability {c : Character} (hc : c.wfb = true) (k : Nat) {a : Ability}
    (ha : a.wfb = true) :
    ({ c with abilities := c.abilities.set k a } : Character).wfb = true := by
  rw [Character.wfb_iff] at hc
  obtain ⟨h1, h2, h3, h4, h5⟩ := hc
  rw [Character.wfb_iff]
  refine ⟨h1, h2, h3, h4, ?_⟩
  intro x hx
  rcases List.mem_or_eq_of_mem_set hx with hx1 | rfl
  · exact h5 x hx1
  · exact ha

theorem Event.wfb_abilityUsed (i d : String) (a : Ability) (t : Option CharRef) :
    (Event.abilityUsed i d a.effect t).wfb = a.wfb := by
  cases h : a.effect <;> simp [Event.wfb, Ability.wfb, h]

theorem GameEngine.wfb_mk_append (S : GameEngine) (tl : List LogEntry) (bo : Bool)
    (tc ri ui : Nat) {ev : Event} (h : S.wfb = true) (hev : ev.wfb = true) :
    (GameEngine.mk S.team_a S.team_b tl (S.event_log ++ [ev]) bo tc ri ui).wfb = true := by
  rw [GameEngine.wfb_all_iff] at h
  obtain ⟨hA, hB, hE⟩ := h
  rw [GameEngine.wfb_all_iff]
  refine ⟨hA, hB, ?_⟩
  intro e he
  rcases List.mem_append.mp he with h1 | h1
  · exact hE e h1
  · rw [List.mem_singleton.mp h1]
    exact hev

set_option maxHeartbeats 1600000 in
theorem GameEngine.wfb_basic_attack (st : GameEngine) (rng : Nat → RandDraw)
    (uuids : Nat → String) (fref : CharRef) (record : ActionRecord)
    (h : st.wfb = true) :
    ((st.basic_attack rng uuids fref record).1).wfb = true := by
  have hatk : 0 ≤ (st.getChar fref).attack :=
    Character.wfb_attack_nonneg (GameEngine.wfb_getChar h fref)
  have hdiv : 0 ≤ (st.getChar fref).attack.tdiv 2 := Int.tdiv_nonneg hatk (by decide)
  unfold GameEngine.basic_attack GameEngine.choose_target
  dsimp only
  repeat' split
  all_goals
    try simp only [drawFloat_fst, drawFloat_snd, drawChoice_fst, drawChoice_snd, drawUuid_fst,
      drawUuid_snd, GameEngine.modifyChar]
  all_goals
    first
      | exact h
      | (exact GameEngine.wfb_mk_append _ _ _ _ _ _ h rfl)
      | (refine GameEngine.wfb_setChar
            (GameEngine.wfb_mk_append _ _ _ _ _ _ h ?_)
            (Character.wfb_take_damage
              (GameEngine.wfb_getChar (GameEngine.wfb_mk_append _ _ _ _ _ _ h ?_) _)
              (by omega)) _
         all_goals
           simp only [Event.wfb, decide_eq_true_eq]
         all_goals
           exact hdiv)
      | (refine GameEngine.wfb_setChar ?_
            (Character.wfb_take_damage (GameEngine.wfb_getChar ?_ _) (by omega)) _
         all_goals
           exact h)

set_option maxHeartbeats 1600000 in
theorem GameEngine.wfb_ability_action (st : GameEngine) (rng : Nat → RandDraw)
    (uuids : Nat → String) (fref : CharRef) (record : ActionRecord) (availIdx : List Nat)
    (h : st.wfb = true) :
    ((st.ability_action rng uuids fref record availIdx).1).wfb = true := by
  unfold GameEngine.ability_action GameEngine.choose_target
  dsimp only
  repeat' split
  all_goals
    try simp only [drawFloat_fst, drawFloat_snd, drawChoice_fst, drawChoice_snd, drawUuid_fst,
      drawUuid_snd, GameEngine.modifyChar]
  all_goals
    first
      | exact h
      | (refine GameEngine.wfb_setChar ?_
            (Character.wfb_take_damage (GameEngine.wfb_getChar ?_ _) (by omega)) _
         all_goals
           refine GameEngine.wfb_mk_append _ _ _ _ _ _ ?_ ?_
         all_goals
           first
             | (rw [ Event.wfb_abilityUsed]
                exact wfb_abilities_getD (GameEngine.wfb_getChar h fref) _)
             | (refine GameEngine.wfb_setChar ?_ ?_ _
                · exact h
                · refine Character.wfb_set_ability ?_ _ ?_
                  · rw [GameEngine.getChar_nonteam_mk]
                    exact GameEngine.wfb_getChar h _
                  · rw [ Ability.wfb_use]
                    exact wfb_abilities_getD (GameEngine.wfb_getChar h fref) _))

theorem GameEngine.wfb_perform_action (st : GameEngine) (rng : Nat → RandDraw)
    (uuids : Nat → String) (fref : CharRef) (h : st.wfb = true) :
    ((st.perform_action rng uuids fref).1).wfb = true := by
  unfold GameEngine.perform_action
  dsimp only
  split
  · exact GameEngine.wfb_basic_attack _ rng uuids fref _ h
  · split
    · exact GameEngine.wfb_ability_action _ rng uuids fref _ _ h
    · exact GameEngine.wfb_basic_attack _ rng uuids fref _ h

theorem GameEngine.wfb_action_loop (rng : Nat → RandDraw) (uuids : Nat → String) :
    ∀ (refs : List CharRef) (st : GameEngine), st.wfb = true →
      ((GameEngine.action_loop rng uuids st refs).1).wfb = true := by
  intro refs
  induction refs with
  | nil =>
    intro st h
    exact h
  | cons r rs ih =>
    intro st h
    have h1 : ((st.modifyChar r Character.tick_abilities).perform_action rng uuids r).1.wfb
        = true := by
      refine GameEngine.wfb_perform_action _ rng uuids r ?_
      simp only [GameEngine.modifyChar]
      exact GameEngine.wfb_setChar h
        (Character.wfb_tick_abilities (GameEngine.wfb_getChar h r)) r
    unfold GameEngine.action_loop
    dsimp only
    split
    · exact ih st h
    · split
      · exact h1
      · exact ih _ h1

theorem GameEngine.wfb_one_turn (st : GameEngine) (rng : Nat → RandDraw)
    (uuids : Nat → String) (h : st.wfb = true) : (st.one_turn rng uuids).wfb = true := by
  have hB : (({ st with turn_count := st.turn_count + 1 }
      : GameEngine).process_status_phase.1).wfb = true :=
    GameEngine.wfb_process_status_phase h
  have hAL := GameEngine.wfb_action_loop rng uuids
    ((({ st with turn_count := st.turn_count + 1 }
      : GameEngine).process_status_phase.1).sorted_fighters
      (({ st with turn_count := st.turn_count + 1 }
        : GameEngine).process_status_phase.1).all_alive_refs)
    (({ st with turn_count := st.turn_count + 1 } : GameEngine).process_status_phase.1) hB
  unfold GameEngine.one_turn
  dsimp only
  split
  · exact hB
  · refine GameEngine.wfb_process_events ?_
    rw [GameEngine.wfb_all_iff] at hAL ⊢
    obtain ⟨hA1, hB1, hE1⟩ := hAL
    exact ⟨hA1, hB1, hE1⟩

theorem GameEngine.wfb_run_turns (rng : Nat → RandDraw) (uuids : Nat → String) :
    ∀ (fuel : Nat) (st : GameEngine), st.wfb = true →
      (GameEngine.run_turns rng uuids fuel st).wfb = true := by
  intro fuel
  induction fuel with
  | zero =>
    intro st h
    exact h
  | succ n ih =>
    intro st h
    unfold GameEngine.run_turns
    split
    · exact h
    · exact ih _ (GameEngine.wfb_one_turn st rng uuids h)

/-- C5: `takeDamage` subtracts and clamps at 0, `heal` adds and clamps at
`max_hp` (both leaving `max_hp` unchanged and, for nonnegative amounts on an
in-bounds character, staying within `[0, max_hp]`); and for squads whose
members are well-formed (in-bounds health, nonnegative attack and
status-effect magnitudes), every state the battle loop reaches — after any
number of turns — keeps every rostered character's health within
`[0, max_hp]`. -/
theorem claim_C5_health_bounds (c : Character) (n : Int) (hn : 0 ≤ n)
    (hc0 : 0 ≤ c.current_hp) (hcm : c.current_hp ≤ c.max_hp)
    (a b : Team) (rng : Nat → RandDraw) (uuids : Nat → String) (k : Nat)
    (ha : ∀ x ∈ a.characters, x.wfb = true) (hb : ∀ x ∈ b.characters, x.wfb = true) :
    ((c.take_damage n).current_hp = max 0 (c.current_hp - n)
        ∧ (c.take_damage n).max_hp = c.max_hp
        ∧ 0 ≤ (c.take_damage n).current_hp
        ∧ (c.take_damage n).current_hp ≤ (c.take_damage n).max_hp)
      ∧ ((c.heal n).current_hp = min (c.current_hp + n) c.max_hp
        ∧ (c.heal n).max_hp = c.max_hp
        ∧ 0 ≤ (c.heal n).current_hp
        ∧ (c.heal n).current_hp ≤ (c.heal n).max_hp)
      ∧ (∀ x ∈ (((GameEngine.init a b).run_turns rng uuids k).team_a.characters
            ++ ((GameEngine.init a b).run_turns rng uuids k).team_b.characters),
          0 ≤ x.current_hp ∧ x.current_hp ≤ x.max_hp) := by
  refine ⟨?_, ?_, ?_⟩
  · unfold Character.take_damage
    dsimp only
    split <;>
      exact ⟨by dsimp only; omega, rfl, by dsimp only; omega, by dsimp only; omega⟩
  · unfold Character.heal
    dsimp only
    split <;>
      refine ⟨?_, rfl, ?_, ?_⟩ <;> (try dsimp only) <;> omega
  · have hwf : (GameEngine.init a b).wfb = true := by
      rw [GameEngine.wfb_all_iff]
      exact ⟨ha, hb, fun e he => absurd he (List.not_mem_nil e)⟩
    have hrun := GameEngine.wfb_run_turns rng uuids k _ hwf
    rw [GameEngine.wfb_all_iff] at hrun
    obtain ⟨hA, hB, _⟩ := hrun
    intro x hx
    rcases List.mem_append.mp hx with h1 | h1
    · have hx1 := (Character.wfb_iff x).mp (hA x h1)
      exact ⟨hx1.1, hx1.2.1⟩
    · have hx1 := (Character.wfb_iff x).mp (hB x h1)
      exact ⟨hx1.1, hx1.2.1⟩

/-- C5 witness: the characterization applied to a concrete combatant (10
max hp, 7 hp after taking 4 from 10 and healing 1) and one executed turn of
the `c6A` vs `c6B` run. -/
theorem claim_C5_health_bounds_witness :
    (((Character.make "W" 10 1 0 1 "T" 0 [] []).take_damage 4).current_hp
        = max 0 ((Character.make "W" 10 1 0 1 "T" 0 [] []).current_hp - 4))
      ∧ (∀ x ∈ (((GameEngine.init c6A c6B).run_turns c6rng (fun _ => "u") 1).team_a.characters
            ++ ((GameEngine.init c6A c6B).run_turns c6rng (fun _ => "u") 1).team_b.characters),
          0 ≤ x.current_hp ∧ x.current_hp ≤ x.max_hp) :=
  ⟨(claim_C5_health_bounds (Character.make "W" 10 1 0 1 "T" 0 [] []) 4 (by decide) (by decide)
      (by decide) c6A c6B c6rng (fun _ => "u") 1 (by decide) (by decide)).1.1,
   (claim_C5_health_bounds (Character.make "W" 10 1 0 1 "T" 0 [] []) 4 (by decide) (by decide)
      (by decide) c6A c6B c6rng (fun _ => "u") 1 (by decide) (by decide)).2.2⟩

/-! Uuid-variance: two runs that differ only in the uuid stream stay in
lockstep; their states differ only in uuid-derived data. -/

theorem GameEngine.getChar_mk_free (S : GameEngine) (tl : List LogEntry) (el : List Event)
    (bo : Bool) (tc ri ui : Nat) (r : CharRef) :
    (GameEngine.mk S.team_a S.team_b tl el bo tc ri ui).getChar r = S.getChar r := by
  obtain ⟨s, i⟩ := r
  cases s <;> rfl

theorem GameEngine.uuid_variant_mk2 {A B : Team} {tl1 tl2 : List LogEntry}
    {el1 el2 : List Event} {bo : Bool} {tc ri ui : Nat}
    (htl : tl1.map LogEntry.erase_events = tl2.map LogEntry.erase_events)
    (hel : el1.map Event.erase_id = el2.map Event.erase_id) :
    (GameEngine.mk A B tl1 el1 bo tc ri ui).uuid_variant
      (GameEngine.mk A B tl2 el2 bo tc ri ui) := by
  exact ⟨rfl, rfl, htl, hel, rfl, rfl, rfl, rfl⟩

theorem GameEngine.uuid_variant_setChar {s1 s2 : GameEngine} (h : s1.uuid_variant s2)
    (r : CharRef) (c : Character) : (s1.setChar r c).uuid_variant (s2.setChar r c) := by
  obtain ⟨hta, htb, htl, hev, hbo, htc, hri, hui⟩ := h
  obtain ⟨s, i⟩ := r
  cases s <;>
    exact ⟨by simp [GameEngine.setChar, hta], by simp [GameEngine.setChar, htb],
      by simp [htl], by simp [hev], by simp [hbo], by simp [htc], by simp [hri],
      by simp [hui]⟩

theorem map_erase_append (el1 el2 : List Event) (e1 e2 : Event)
    (h : el1.map Event.erase_id = el2.map Event.erase_id)
    (he : e1.erase_id = e2.erase_id) :
    (el1 ++ [e1]).map Event.erase_id = (el2 ++ [e2]).map Event.erase_id := by
  simp only [List.map_append, List.map_cons, List.map_nil, h, he]

set_option maxHeartbeats 3200000 in
theorem GameEngine.basic_attack_variant (s1 s2 : GameEngine) (rng : Nat → RandDraw)
    (u1 u2 : Nat → String) (fref : CharRef) (record : ActionRecord) (h : s1.uuid_variant s2) :
    ((s1.basic_attack rng u1 fref record).1).uuid_variant
        ((s2.basic_attack rng u2 fref record).1)
      ∧ (s1.basic_attack rng u1 fref record).2 = (s2.basic_attack rng u2 fref record).2 := by
  obtain ⟨hta, htb, htl, hev, hbo, htc, hri, hui⟩ := h
  have hgc : s2.getChar = s1.getChar := by
    funext r
    exact GameEngine.getChar_congr_teams s1 hta.symm htb.symm r
  have hgt : s2.getTeam = s1.getTeam := by
    funext s
    exact GameEngine.getTeam_congr s1 hta.symm htb.symm s
  have hle : ∀ c, s2.living_enemies c = s1.living_enemies c := by
    intro c
    unfold GameEngine.living_enemies GameEngine.enemy_side
    rw [hgt, ← hta]
  unfold GameEngine.basic_attack GameEngine.choose_target drawFloat drawChoice drawUuid
  dsimp only
  rw [hgc, hle, ← hri, ← hui, ← hta, ← htb, ← hbo, ← htc]
  by_cases c2 : ((s1.living_enemies (s1.getChar fref)).isEmpty = true)
  · rw [if_pos c2, if_pos c2]
    dsimp only
    exact ⟨⟨hta, htb, htl, hev, hbo, htc, hri, hui⟩, rfl⟩
  · rw [if_neg c2, if_neg c2]
    dsimp only
    simp only [GameEngine.getChar_mk_free, GameEngine.modifyChar]
    repeat' split
    all_goals
      first
        | exact ⟨GameEngine.uuid_variant_mk2 htl (map_erase_append _ _ _ _ hev (by rfl)), rfl⟩
        | exact ⟨GameEngine.uuid_variant_setChar
            (GameEngine.uuid_variant_mk2 htl (map_erase_append _ _ _ _ hev (by rfl))) _ _, rfl⟩
        | exact ⟨GameEngine.uuid_variant_setChar
            (GameEngine.uuid_variant_mk2 htl hev) _ _, rfl⟩

theorem GameEngine.living_enemies_mk_free (S : GameEngine) (tl : List LogEntry)
    (el : List Event) (bo : Bool) (tc ri ui : Nat) (c : Character) :
    (GameEngine.mk S.team_a S.team_b tl el bo tc ri ui).living_enemies c
      = S.living_enemies c := by
  unfold GameEngine.living_enemies GameEngine.enemy_side
  dsimp only
  rw [GameEngine.getTeam_nonteam_mk]

theorem GameEngine.setChar_mk_team_a (S : GameEngine) (tl : List LogEntry) (el : List Event)
    (bo : Bool) (tc ri ui : Nat) (r : CharRef) (c : Character) :
    ((GameEngine.mk S.team_a S.team_b tl el bo tc ri ui).setChar r c).team_a
      = (S.setChar r c).team_a := by
  obtain ⟨s, i⟩ := r
  cases s <;> simp [GameEngine.setChar]

theorem GameEngine.setChar_mk_team_b (S : GameEngine) (tl : List LogEntry) (el : List Event)
    (bo : Bool) (tc ri ui : Nat) (r : CharRef) (c : Character) :
    ((GameEngine.mk S.team_a S.team_b tl el bo tc ri ui).setChar r c).team_b
      = (S.setChar r c).team_b := by
  obtain ⟨s, i⟩ := r
  cases s <;> simp [GameEngine.setChar]

set_option maxHeartbeats 3200000 in
theorem GameEngine.ability_action_variant (s1 s2 : GameEngine) (rng : Nat → RandDraw)
    (u1 u2 : Nat → String) (fref : CharRef) (record : ActionRecord) (availIdx : List Nat)
    (h : s1.uuid_variant s2) :
    ((s1.ability_action rng u1 fref record availIdx).1).uuid_variant
        ((s2.ability_action rng u2 fref record availIdx).1)
      ∧ (s1.ability_action rng u1 fref record availIdx).2
        = (s2.ability_action rng u2 fref record availIdx).2 := by
  obtain ⟨hta, htb, htl, hev, hbo, htc, hri, hui⟩ := h
  have hgc : s2.getChar = s1.getChar := by
    funext r
    exact GameEngine.getChar_congr_teams s1 hta.symm htb.symm r
  unfold GameEngine.ability_action GameEngine.choose_target drawChoice drawUuid
  dsimp only
  rw [hgc, ← hri, ← hui, ← hta, ← htb, ← hbo, ← htc]
  simp only [GameEngine.living_enemies_mk_free, GameEngine.getChar_mk_free]
  by_cases c2 : ((s1.living_enemies (s1.getChar fref)).isEmpty = true)
  · rw [if_pos c2, if_pos c2]
    dsimp only
    exact ⟨GameEngine.uuid_variant_mk2 htl hev, rfl⟩
  · rw [if_neg c2, if_neg c2]
    dsimp only
    simp only [GameEngine.modifyChar, GameEngine.setChar_mk_team_a,
      GameEngine.setChar_mk_team_b, GameEngine.setChar_turn_log, GameEngine.setChar_event_log,
      GameEngine.setChar_battle_over, GameEngine.setChar_turn_count, GameEngine.setChar_rng_idx,
      GameEngine.setChar_uuid_idx, GameEngine.getChar_mk_free]
    exact ⟨GameEngine.uuid_variant_setChar
      (GameEngine.uuid_variant_mk2 htl (map_erase_append _ _ _ _ hev (by rfl))) _ _, trivial⟩

set_option maxHeartbeats 3200000 in
theorem GameEngine.perform_action_variant (s1 s2 : GameEngine) (rng : Nat → RandDraw)
    (u1 u2 : Nat → String) (fref : CharRef) (h : s1.uuid_variant s2) :
    ((s1.perform_action rng u1 fref).1).uuid_variant ((s2.perform_action rng u2 fref).1)
      ∧ (s1.perform_action rng u1 fref).2 = (s2.perform_action rng u2 fref).2 := by
  have h0 := h
  obtain ⟨hta, htb, htl, hev, hbo, htc, hri, hui⟩ := h
  have hgc : s2.getChar = s1.getChar := by
    funext r
    exact GameEngine.getChar_congr_teams s1 hta.symm htb.symm r
  have hai : s2.avail_indices fref = s1.avail_indices fref := by
    unfold GameEngine.avail_indices
    rw [hgc]
  unfold GameEngine.perform_action drawFloat
  dsimp only
  rw [hgc, hai, ← hri, ← hui, ← hta, ← htb, ← hbo, ← htc]
  by_cases cA : ((s1.avail_indices fref).isEmpty = true)
  · rw [if_pos cA, if_pos cA]
    exact GameEngine.basic_attack_variant s1 s2 rng u1 u2 fref _ h0
  · rw [if_neg cA, if_neg cA]
    by_cases cB : ((rng s1.rng_idx).fl < mkRat 3 10)
    · rw [if_pos cB, if_pos cB]
      exact GameEngine.ability_action_variant _ _ rng u1 u2 fref _ _
        (GameEngine.uuid_variant_mk2 htl hev)
    · rw [if_neg cB, if_neg cB]
      exact GameEngine.basic_attack_variant _ _ rng u1 u2 fref _
        (GameEngine.uuid_variant_mk2 htl hev)

theorem GameEngine.all_alive_refs_congr {s1 s2 : GameEngine} (hta : s1.team_a = s2.team_a)
    (htb : s1.team_b = s2.team_b) : s2.all_alive_refs = s1.all_alive_refs := by
  unfold GameEngine.all_alive_refs
  rw [← hta, ← htb]

theorem statusStep_variant {a1 a2 : GameEngine × List String} (h : a1.1.uuid_variant a2.1)
    (hl : a1.2 = a2.2) (r : CharRef) :
    ((statusStep a1 r).1).uuid_variant ((statusStep a2 r).1)
      ∧ (statusStep a1 r).2 = (statusStep a2 r).2 := by
  have hgc : a2.1.getChar = a1.1.getChar := by
    funext c
    exact GameEngine.getChar_congr_teams a1.1 h.1.symm h.2.1.symm c
  unfold statusStep
  dsimp only
  rw [hgc, hl]
  exact ⟨GameEngine.uuid_variant_setChar h r _, rfl⟩

theorem foldl_statusStep_variant : ∀ (refs : List CharRef) (a1 a2 : GameEngine × List String),
    a1.1.uuid_variant a2.1 → a1.2 = a2.2 →
      ((refs.foldl statusStep a1).1).uuid_variant ((refs.foldl statusStep a2).1)
        ∧ (refs.foldl statusStep a1).2 = (refs.foldl statusStep a2).2 := by
  intro refs
  induction refs with
  | nil =>
    intro a1 a2 h hl
    exact ⟨h, hl⟩
  | cons r rs ih =>
    intro a1 a2 h hl
    rw [List.foldl_cons, List.foldl_cons]
    obtain ⟨h1, h2⟩ := statusStep_variant h hl r
    exact ih _ _ h1 h2

theorem GameEngine.process_status_phase_variant {s1 s2 : GameEngine}
    (h : s1.uuid_variant s2) :
    (s1.process_status_phase.1).uuid_variant (s2.process_status_phase.1)
      ∧ s1.process_status_phase.2 = s2.process_status_phase.2 := by
  unfold GameEngine.process_status_phase
  rw [GameEngine.all_alive_refs_congr h.1 h.2.1]
  exact foldl_statusStep_variant _ _ _ h rfl

theorem LogEntry.erase_events_push (e : LogEntry) (s : String) :
    (e.push_event s).erase_events = e.erase_events := by
  cases e <;> rfl

theorem GameEngine.push_event_string_variant {s1 s2 : GameEngine} (h : s1.uuid_variant s2)
    (a b : String) :
    (s1.push_event_string a).uuid_variant (s2.push_event_string b) := by
  obtain ⟨hta, htb, htl, hev, hbo, htc, hri, hui⟩ := h
  have hlast : (s1.turn_log.getLast?).map LogEntry.erase_events
      = (s2.turn_log.getLast?).map LogEntry.erase_events := by
    rw [← List.getLast?_map, ← List.getLast?_map, htl]
  have hdrop : s1.turn_log.dropLast.map LogEntry.erase_events
      = s2.turn_log.dropLast.map LogEntry.erase_events := by
    rw [List.map_dropLast, List.map_dropLast, htl]
  unfold GameEngine.push_event_string
  cases h1 : s1.turn_log.getLast? with
  | none =>
    cases h2 : s2.turn_log.getLast? with
    | none => exact ⟨hta, htb, htl, hev, hbo, htc, hri, hui⟩
    | some e2 =>
      rw [h1, h2] at hlast
      exact absurd hlast (by simp)
  | some e1 =>
    cases h2 : s2.turn_log.getLast? with
    | none =>
      rw [h1, h2] at hlast
      exact absurd hlast (by simp)
    | some e2 =>
      rw [h1, h2] at hlast
      simp only [Option.map_some', Option.some.injEq] at hlast
      refine ⟨hta, htb, ?_, hev, hbo, htc, hri, hui⟩
      simp only [List.map_append, List.map_cons, List.map_nil]
      rw [hdrop, LogEntry.erase_events_push, LogEntry.erase_events_push, hlast]

theorem Event.process_variant {e1 e2 : Event} {s1 s2 : GameEngine}
    (he : e1.erase_id = e2.erase_id) (h : s1.uuid_variant s2) :
    (e1.process s1).uuid_variant (e2.process s2) := by
  have hgc : s2.getChar = s1.getChar := by
    funext c
    exact GameEngine.getChar_congr_teams s1 h.1.symm h.2.1.symm c
  cases e1 with
  | criticalHit i1 d1 t1 x1 =>
    cases e2 with
    | criticalHit i2 d2 t2 x2 =>
      simp [Event.erase_id] at he
      obtain ⟨hd, ht, hx⟩ := he
      subst hd
      subst ht
      subst hx
      unfold Event.process
      simp only [GameEngine.modifyChar]
      rw [hgc]
      exact GameEngine.uuid_variant_setChar h _ _
    | miss i2 d2 => simp [Event.erase_id] at he
    | abilityUsed i2 d2 f2 t2 => simp [Event.erase_id] at he
  | miss i1 d1 =>
    cases e2 with
    | criticalHit i2 d2 t2 x2 => simp [Event.erase_id] at he
    | miss i2 d2 => exact h
    | abilityUsed i2 d2 f2 t2 => simp [Event.erase_id] at he
  | abilityUsed i1 d1 f1 t1 =>
    cases e2 with
    | criticalHit i2 d2 t2 x2 => simp [Event.erase_id] at he
    | miss i2 d2 => simp [Event.erase_id] at he
    | abilityUsed i2 d2 f2 t2 =>
      simp [Event.erase_id] at he
      obtain ⟨hd, hf, ht⟩ := he
      subst hd
      subst hf
      subst ht
      unfold Event.process
      cases f1 with
      | none => cases t1 <;> exact h
      | some eff =>
        cases t1 with
        | none => exact h
        | some tref =>
          simp only [GameEngine.modifyChar]
          rw [hgc]
          exact GameEngine.uuid_variant_setChar h _ _

theorem eventStep_variant {e1 e2 : Event} {s1 s2 : GameEngine}
    (he : e1.erase_id = e2.erase_id) (h : s1.uuid_variant s2) :
    (eventStep s1 e1).uuid_variant (eventStep s2 e2) := by
  unfold eventStep
  exact GameEngine.push_event_string_variant (Event.process_variant he h) _ _

theorem foldl_eventStep_variant : ∀ (l1 l2 : List Event) (s1 s2 : GameEngine),
    l1.map Event.erase_id = l2.map Event.erase_id → s1.uuid_variant s2 →
      (l1.foldl eventStep s1).uuid_variant (l2.foldl eventStep s2) := by
  intro l1
  induction l1 with
  | nil =>
    intro l2 s1 s2 hl h
    cases l2 with
    | nil => exact h
    | cons e es => simp at hl
  | cons e1 es1 ih =>
    intro l2 s1 s2 hl h
    cases l2 with
    | nil => simp at hl
    | cons e2 es2 =>
      simp only [List.map_cons, List.cons.injEq] at hl
      rw [List.foldl_cons, List.foldl_cons]
      exact ih _ _ _ hl.2 (eventStep_variant hl.1 h)

theorem GameEngine.process_events_variant {s1 s2 : GameEngine} (h : s1.uuid_variant s2) :
    (s1.process_events).uuid_variant (s2.process_events) := by
  unfold GameEngine.process_events
  refine foldl_eventStep_variant _ _ _ _ h.2.2.2.1 ?_
  obtain ⟨hta, htb, htl, hev, hbo, htc, hri, hui⟩ := h
  exact ⟨hta, htb, htl, rfl, hbo, htc, hri, hui⟩

theorem GameEngine.uuid_variant_set_battle_over {s1 s2 : GameEngine}
    (h : s1.uuid_variant s2) (b : Bool) :
    ({ s1 with battle_over := b } : GameEngine).uuid_variant { s2 with battle_over := b } := by
  obtain ⟨hta, htb, htl, hev, hbo, htc, hri, hui⟩ := h
  exact ⟨hta, htb, htl, hev, rfl, htc, hri, hui⟩

theorem GameEngine.action_loop_variant (rng : Nat → RandDraw) (u1 u2 : Nat → String) :
    ∀ (refs : List CharRef) (s1 s2 : GameEngine), s1.uuid_variant s2 →
      ((GameEngine.action_loop rng u1 s1 refs).1).uuid_variant
          ((GameEngine.action_loop rng u2 s2 refs).1)
        ∧ (GameEngine.action_loop rng u1 s1 refs).2
          = (GameEngine.action_loop rng u2 s2 refs).2 := by
  intro refs
  induction refs with
  | nil =>
    intro s1 s2 h
    exact ⟨h, rfl⟩
  | cons r rs ih =>
    intro s1 s2 h
    have hgc : s2.getChar = s1.getChar := by
      funext c
      exact GameEngine.getChar_congr_teams s1 h.1.symm h.2.1.symm c
    unfold GameEngine.action_loop
    dsimp only
    rw [hgc]
    by_cases hc : (¬ (s1.getChar r).is_alive = true)
    · rw [if_pos hc, if_pos hc]
      exact ih _ _ h
    · rw [if_neg hc, if_neg hc]
      have hstep : (s1.modifyChar r Character.tick_abilities).uuid_variant
          (s2.modifyChar r Character.tick_abilities) := by
        simp only [GameEngine.modifyChar]
        rw [hgc]
        exact GameEngine.uuid_variant_setChar h _ _
      obtain ⟨hpr, hrec⟩ := GameEngine.perform_action_variant _ _ rng u1 u2 r hstep
      rw [← hpr.1, ← hpr.2.1, ← hrec]
      by_cases hd : (((((s1.modifyChar r Character.tick_abilities).perform_action rng u1
            r).1).team_a.is_defeated
          || (((s1.modifyChar r Character.tick_abilities).perform_action rng u1
            r).1).team_b.is_defeated) = true)
      · rw [if_pos hd, if_pos hd]
        obtain ⟨p1, p2, p3, p4, p5, p6, p7, p8⟩ := hpr
        exact ⟨⟨rfl, rfl, p3, p4, rfl, p6, p7, p8⟩, rfl⟩
      · rw [if_neg hd, if_neg hd]
        dsimp only
        obtain ⟨hr1, hr2⟩ := ih _ _ hpr
        rw [hr2]
        exact ⟨hr1, rfl⟩

set_option maxHeartbeats 1600000 in
theorem GameEngine.one_turn_variant {s1 s2 : GameEngine} (rng : Nat → RandDraw)
    (u1 u2 : Nat → String) (h : s1.uuid_variant s2) :
    (s1.one_turn rng u1).uuid_variant (s2.one_turn rng u2) := by
  have htc0 : s1.turn_count = s2.turn_count := h.2.2.2.2.2.1
  have h1 : ({ s1 with turn_count := s1.turn_count + 1 } : GameEngine).uuid_variant
      { s2 with turn_count := s2.turn_count + 1 } := by
    obtain ⟨hta, htb, htl, hev, hbo, htc, hri, hui⟩ := h
    exact ⟨hta, htb, htl, hev, hbo, by rw [htc], hri, hui⟩
  obtain ⟨hps, hlog⟩ := GameEngine.process_status_phase_variant h1
  have hrefs := GameEngine.all_alive_refs_congr hps.1 hps.2.1
  unfold GameEngine.one_turn
  dsimp only
  rw [hrefs, ← hlog]
  by_cases hw : ((({ s1 with turn_count := s1.turn_count + 1 }
      : GameEngine).process_status_phase.1).all_alive_refs.isEmpty = true)
  · rw [if_pos hw, if_pos hw]
    exact GameEngine.uuid_variant_set_battle_over hps true
  · rw [if_neg hw, if_neg hw]
    have hsort : (({ s2 with turn_count := s2.turn_count + 1 }
        : GameEngine).process_status_phase.1).sorted_fighters
          ((({ s1 with turn_count := s1.turn_count + 1 }
            : GameEngine).process_status_phase.1).all_alive_refs)
        = (({ s1 with turn_count := s1.turn_count + 1 }
            : GameEngine).process_status_phase.1).sorted_fighters
          ((({ s1 with turn_count := s1.turn_count + 1 }
            : GameEngine).process_status_phase.1).all_alive_refs) := by
      unfold GameEngine.sorted_fighters
      have hfun : (fun r1 r2 => fighterLe
            ((({ s2 with turn_count := s2.turn_count + 1 }
              : GameEngine).process_status_phase.1).getChar r1)
            ((({ s2 with turn_count := s2.turn_count + 1 }
              : GameEngine).process_status_phase.1).getChar r2))
          = (fun r1 r2 => fighterLe
            ((({ s1 with turn_count := s1.turn_count + 1 }
              : GameEngine).process_status_phase.1).getChar r1)
            ((({ s1 with turn_count := s1.turn_count + 1 }
              : GameEngine).process_status_phase.1).getChar r2)) := by
        funext r1 r2
        rw [GameEngine.getChar_congr_teams _ hps.1.symm hps.2.1.symm,
          GameEngine.getChar_congr_teams _ hps.1.symm hps.2.1.symm]
      rw [hfun]
    rw [hsort]
    obtain ⟨hal, hacts⟩ := GameEngine.action_loop_variant rng u1 u2
      ((({ s1 with turn_count := s1.turn_count + 1 }
        : GameEngine).process_status_phase.1).sorted_fighters
        ((({ s1 with turn_count := s1.turn_count + 1 }
          : GameEngine).process_status_phase.1).all_alive_refs)) _ _ hps
    refine GameEngine.process_events_variant ?_
    obtain ⟨h1a, h1b, h1tl, h1ev, h1bo, h1tc, h1ri, h1ui⟩ := hal
    refine ⟨h1a, h1b, ?_, h1ev, h1bo, h1tc, h1ri, h1ui⟩
    simp only [List.map_append, List.map_cons, List.map_nil, h1tl]
    rw [hacts, htc0]

theorem GameEngine.run_turns_variant (rng : Nat → RandDraw) (u1 u2 : Nat → String) :
    ∀ (fuel : Nat) (s1 s2 : GameEngine), s1.uuid_variant s2 →
      (GameEngine.run_turns rng u1 fuel s1).uuid_variant
        (GameEngine.run_turns rng u2 fuel s2) := by
  intro fuel
  induction fuel with
  | zero =>
    intro s1 s2 h
    exact h
  | succ n ih =>
    intro s1 s2 h
    have hbo : s1.battle_over = s2.battle_over := h.2.2.2.2.1
    have htc : s1.turn_count = s2.turn_count := h.2.2.2.2.2.1
    unfold GameEngine.run_turns
    rw [← hbo, ← htc]
    split
    · exact h
    · exact ih _ _ (GameEngine.one_turn_variant rng u1 u2 h)

theorem GameEngine.log_battle_result_variant {s1 s2 : GameEngine} (h : s1.uuid_variant s2) :
    s1.log_battle_result.turn_log.map LogEntry.erase_events
      = s2.log_battle_result.turn_log.map LogEntry.erase_events := by
  obtain ⟨hta, htb, htl, hev, hbo, htc, hri, hui⟩ := h
  have hbs : s2.battle_result_string = s1.battle_result_string := by
    unfold GameEngine.battle_result_string
    rw [← hta, ← htb]
  unfold GameEngine.log_battle_result
  dsimp only
  rw [hbs, ← htc]
  simp only [List.map_append, List.map_cons, List.map_nil, htl]

/-- C1 (amended): determinism modulo uuids — for every pair of squads, every
seed-determined draw stream and any two uuid streams, the two runs produce
confrontation logs that agree byte-for-byte once each turn record's `events`
list is erased.  The `events` strings embed `uuid.uuid4().hex` ids drawn
from OS entropy rather than the seeded generator, so they — and only
they — can differ between two runs with the same seed. -/
theorem claim_C1_amended (a b : Team) (rng : Nat → RandDraw) (u1 u2 : Nat → String) :
    (GameEngine.run_battle a b rng u1).turn_log.map LogEntry.erase_events
      = (GameEngine.run_battle a b rng u2).turn_log.map LogEntry.erase_events := by
  unfold GameEngine.run_battle
  exact GameEngine.log_battle_result_variant
    (GameEngine.run_turns_variant rng u1 u2 100 _ _ ⟨rfl, rfl, rfl, rfl, rfl, rfl, rfl, rfl⟩)

end Battle
